import Mathlib

/-!
Task Capability Interface car-following model (MSCFModel_TCI.cpp)

A shallow embedding of `src/microsim/cfmodels/MSCFModel_TCI.cpp`.

Conventions of the embedding

* A C++ `double` is an exact rational (`ℚ`): the arithmetic of the model is the
  arithmetic of the formulas, without rounding, infinities or NaN.  Division by
  zero yields `0` in `ℚ`; every statement that depends on a quotient says which
  divisor it needs to be non-zero.
* `exp` and `sqrt` (used only by `OUProcess::step`) and the standard-normal draw
  `RandHelper::randNorm(0, 1)` are arguments of the functions that use them.
* A `std::shared_ptr<MSTrafficItem>` is an address (`Nat`); the objects live in
  the field `items` of the model state, so that aliasing between the caller's
  pointer and the two item tables is kept.
* A `std::map` keyed by the identity hash is a key-sorted association list.
* `assert` is modelled as enabled: a failing assertion yields `none`.
* The functions of the base class `MSCFModel` that `stopSpeed` and `followSpeed`
  call are fields of a parameter.
* `WRITE_WARNING` writes to the global message handler, which is not part of
  the model object, and is left out.
-/

namespace TCI

/-! ## Helpers from `utils/common/StdDefs.h` -/

/-- Modelled from the spec: the template `MIN2` of `utils/common/StdDefs.h`
(not part of the sources at hand), `a < b ? a : b`. -/
def MIN2 (a b : ℚ) : ℚ := if a < b then a else b

/-- Modelled from the spec: the template `MAX2` of `utils/common/StdDefs.h`
(not part of the sources at hand), `a > b ? a : b`. -/
def MAX2 (a b : ℚ) : ℚ := if a > b then a else b

/-! ## Default value definitions (lines 51-67) -/

namespace TCIDefaults

def myMinTaskCapability : ℚ := 1 / 10
def myMaxTaskCapability : ℚ := 10
def myMaxTaskDemand : ℚ := 20
def myMaxDifficulty : ℚ := 10
def mySubCriticalDifficultyCoefficient : ℚ := 1 / 10
def mySuperCriticalDifficultyCoefficient : ℚ := 1
def myHomeostasisDifficulty : ℚ := 3 / 2
def myCapabilityTimeScale : ℚ := 1 / 2
def myAccelerationErrorTimeScaleCoefficient : ℚ := 1
def myAccelerationErrorNoiseIntensityCoefficient : ℚ := 1
def myActionStepLengthCoefficient : ℚ := 1
def myMinActionStepLength : ℚ := 0
def myMaxActionStepLength : ℚ := 3
def mySpeedPerceptionErrorTimeScaleCoefficient : ℚ := 1
def mySpeedPerceptionErrorNoiseIntensityCoefficient : ℚ := 1
def myHeadwayPerceptionErrorTimeScaleCoefficient : ℚ := 1
def myHeadwayPerceptionErrorNoiseIntensityCoefficient : ℚ := 1

end TCIDefaults

/-! ## The Ornstein-Uhlenbeck process (lines 73-91) -/

/-- The two functions of `<cmath>` that `OUProcess::step` calls. -/
structure CMath where
  exp : ℚ → ℚ
  sqrt : ℚ → ℚ

/-- The class `MSCFModel_TCI::OUProcess`. -/
structure OUProcess where
  myState : ℚ
  myTimeScale : ℚ
  myNoiseIntensity : ℚ

namespace OUProcess

/-- The method `OUProcess::step(dt)`, line 84; `randNorm` is the value
returned by `RandHelper::randNorm(0, 1)`. -/
def step (m : CMath) (p : OUProcess) (dt : ℚ) (randNorm : ℚ) : OUProcess :=
  { p with
    myState := m.exp (-dt / p.myTimeScale) * p.myState
      + p.myNoiseIntensity * m.sqrt (2 * dt / p.myTimeScale) * randNorm }

def getState (p : OUProcess) : ℚ := p.myState

/-- Modelled from the spec: the inline setter `setState` of the header (§4.1,
a plain accessor). -/
def setState (p : OUProcess) (state : ℚ) : OUProcess := { p with myState := state }

/-- Modelled from the spec: the inline setter `setTimeScale` of the header
(§4.1, a plain mutator). -/
def setTimeScale (p : OUProcess) (timeScale : ℚ) : OUProcess :=
  { p with myTimeScale := timeScale }

/-- Modelled from the spec: the inline setter `setNoiseIntensity` of the header
(§4.1, a plain mutator). -/
def setNoiseIntensity (p : OUProcess) (noiseIntensity : ℚ) : OUProcess :=
  { p with myNoiseIntensity := noiseIntensity }

end OUProcess

/-! ## Traffic items (`microsim/MSTrafficItem.h`) -/

/-- Modelled from the spec: the payload of a traffic item (§3, §4.4), one
variant per value of the type tag that `calculateLatentDemand` switches on,
holding what that function reads from the payload.  The tag and the payload are
one value: an item whose payload does not have the dynamic type of its tag
makes `dynamic_pointer_cast` return null, and is not represented.
`TRAFFIC_ITEM_OTHER` stands for every tag that reaches `default:`.

* junction: `j->getNrOfIncomingLanes()`, `j->getFoeLinks(ch->egoLink).size()`
  and `ch->dist`;
* vehicle: `ch->ego->getEdge()`, `ch->foe->getEdge()`,
  `ego->getEdge()->getOppositeEdge()` (edges by number, `none` for `nullptr`)
  and `ego->getPosition().distanceSquaredTo2D(foe->getPosition())`. -/
inductive MSTrafficItemType where
  | TRAFFIC_ITEM_JUNCTION (nrOfIncomingLanes : Nat) (nrOfFoeLinks : Nat) (dist : ℚ)
  | TRAFFIC_ITEM_PEDESTRIAN
  | TRAFFIC_ITEM_SPEED_LIMIT
  | TRAFFIC_ITEM_TLS
  | TRAFFIC_ITEM_VEHICLE (egoEdge : Option Nat) (foeEdge : Option Nat)
      (egoOppositeEdge : Option Nat) (distanceSquared : ℚ)
  | TRAFFIC_ITEM_OTHER
  deriving DecidableEq

/-- Modelled from the spec: the struct `MSTrafficItem` (§3): identity hash,
type with payload, and the three demand fields. -/
structure MSTrafficItem where
  type : MSTrafficItemType
  id_hash : Nat
  remainingIntegrationTime : ℚ
  integrationDemand : ℚ
  latentDemand : ℚ
  deriving DecidableEq

/-- A `std::map<size_t, std::shared_ptr<MSTrafficItem>>`: pairs of identity
hash and address, sorted by hash. -/
abbrev TrafficItemMap := List (Nat × Nat)

/-- The lookup `m.find(key)`; `none` is `m.end()`. -/
def mapFind : TrafficItemMap → Nat → Option Nat
  | [], _ => none
  | (k, v) :: rest, key => if key = k then some v else mapFind rest key

/-- The assignment `m[key] = value`: overwrite the entry of `key`, or insert
one at its place in the order of the keys. -/
def mapAssign : TrafficItemMap → Nat → Nat → TrafficItemMap
  | [], key, value => [(key, value)]
  | (k, v) :: rest, key, value =>
    if key < k then (key, value) :: (k, v) :: rest
    else if key = k then (key, value) :: rest
    else (k, v) :: mapAssign rest key value

namespace MSTrafficItem

/-- The effect of `MSCFModel_TCI::calculateLatentDemand` (lines 289-361) on the
item it is handed; the method reads and writes nothing else.  In the vehicle
case the function returns early without an ego edge, and otherwise runs through
three comparisons whose bodies are empty. -/
def calculateLatentDemand (ti : MSTrafficItem) : MSTrafficItem :=
  match ti.type with
  | .TRAFFIC_ITEM_JUNCTION nrOfIncomingLanes nrOfFoeLinks dist =>
    let LATENT_DEMAND_COEFF_JUNCTION_INCOMING : ℚ := 1 / 10
    let LATENT_DEMAND_COEFF_JUNCTION_FOES : ℚ := 1 / 2
    let LATENT_DEMAND_COEFF_JUNCTION_DIST : ℚ := 1 / 10
    { ti with
      latentDemand :=
        (LATENT_DEMAND_COEFF_JUNCTION_INCOMING * (nrOfIncomingLanes : ℚ)
          + LATENT_DEMAND_COEFF_JUNCTION_FOES * (nrOfFoeLinks : ℚ))
        / (1 + dist * LATENT_DEMAND_COEFF_JUNCTION_DIST) }
  | .TRAFFIC_ITEM_PEDESTRIAN => { ti with latentDemand := 0 }
  | .TRAFFIC_ITEM_SPEED_LIMIT => { ti with latentDemand := 0 }
  | .TRAFFIC_ITEM_TLS => { ti with latentDemand := 0 }
  | .TRAFFIC_ITEM_VEHICLE egoEdge foeEdge egoOppositeEdge distanceSquared =>
    let LATENT_DEMAND_VEHILCE_EUCLIDEAN_DIST_THRESHOLD : ℚ := 20
    if egoEdge = none then ti
    else if foeEdge = egoEdge then ti
    else if foeEdge = egoOppositeEdge then ti
    else if distanceSquared < LATENT_DEMAND_VEHILCE_EUCLIDEAN_DIST_THRESHOLD then ti
    else ti
  | .TRAFFIC_ITEM_OTHER => ti

/-- The effect of `MSCFModel_TCI::updateItemIntegration` (lines 272-280) on the
item it is handed, `myStepDuration` being the step duration of the model. -/
def updateItemIntegration (myStepDuration : ℚ) (ti : MSTrafficItem) : MSTrafficItem :=
  let ti1 := { ti with remainingIntegrationTime := ti.remainingIntegrationTime - myStepDuration }
  if ti1.remainingIntegrationTime ≤ 0 then
    { ti1 with remainingIntegrationTime := 0, integrationDemand := 0 }
  else ti1

/-- Lines 256-258 of `registerTrafficItem`, on the item: `updateItemIntegration`
is called only if the remaining integration time is positive. -/
def advanceIntegration (myStepDuration : ℚ) (ti : MSTrafficItem) : MSTrafficItem :=
  if ti.remainingIntegrationTime > 0 then ti.updateItemIntegration myStepDuration else ti

end MSTrafficItem

/-! ## The base class and the vehicle -/

/-- Modelled from the spec: the vehicle as far as `stopSpeed` reads it (§4.5),
its identity and `getActionStepLengthSecs()`. -/
structure MSVehicle where
  id : Nat
  getActionStepLengthSecs : ℚ

/-- Modelled from the spec: the functions of the base class `MSCFModel`
(`microsim/cfmodels/MSCFModel.h`, not part of the sources at hand) that
`stopSpeed` and `followSpeed` call (§6): they are arbitrary functions of their
arguments. -/
structure MSCFModel where
  maximumSafeStopSpeed : ℚ → ℚ → Bool → ℚ → ℚ
  maximumSafeFollowSpeed : ℚ → ℚ → ℚ → ℚ → ℚ
  minNextSpeed : ℚ → ℚ
  maxNextSpeed : ℚ → MSVehicle → ℚ

/-! ## The model object -/

/-- The data members of `MSCFModel_TCI` in the order of the constructor's
initialiser list, followed by the two item tables and by `items`, the
`MSTrafficItem` objects that the shared pointers address. -/
structure MSCFModel_TCI where
  myMinTaskCapability : ℚ
  myMaxTaskCapability : ℚ
  myMaxTaskDemand : ℚ
  myMaxDifficulty : ℚ
  mySubCriticalDifficultyCoefficient : ℚ
  mySuperCriticalDifficultyCoefficient : ℚ
  myHomeostasisDifficulty : ℚ
  myCapabilityTimeScale : ℚ
  myAccelerationErrorTimeScaleCoefficient : ℚ
  myAccelerationErrorNoiseIntensityCoefficient : ℚ
  myActionStepLengthCoefficient : ℚ
  myMinActionStepLength : ℚ
  myMaxActionStepLength : ℚ
  mySpeedPerceptionErrorTimeScaleCoefficient : ℚ
  mySpeedPerceptionErrorNoiseIntensityCoefficient : ℚ
  myHeadwayPerceptionErrorTimeScaleCoefficient : ℚ
  myHeadwayPerceptionErrorNoiseIntensityCoefficient : ℚ
  myAccelerationError : OUProcess
  myHeadwayPerceptionError : OUProcess
  mySpeedPerceptionError : OUProcess
  myTaskDemand : ℚ
  myTaskCapability : ℚ
  myCurrentDrivingDifficulty : ℚ
  myActionStepLength : ℚ
  myStepDuration : ℚ
  myLastUpdateTime : ℚ
  myTrafficItems : TrafficItemMap
  myNewTrafficItems : TrafficItemMap
  items : Nat → MSTrafficItem

namespace MSCFModel_TCI

/-- The constructor, lines 94-125.  `TS` is the simulation step length and
`SIMTIME` the simulation time at construction (macros of
`utils/common/SUMOTime.h`); the two tables start empty and `items` is the
memory the object is created in. -/
def construct (TS SIMTIME : ℚ) (items : Nat → MSTrafficItem) : MSCFModel_TCI where
  myMinTaskCapability := TCIDefaults.myMinTaskCapability
  myMaxTaskCapability := TCIDefaults.myMaxTaskCapability
  myMaxTaskDemand := TCIDefaults.myMaxTaskDemand
  myMaxDifficulty := TCIDefaults.myMaxDifficulty
  mySubCriticalDifficultyCoefficient := TCIDefaults.mySubCriticalDifficultyCoefficient
  mySuperCriticalDifficultyCoefficient := TCIDefaults.mySuperCriticalDifficultyCoefficient
  myHomeostasisDifficulty := TCIDefaults.myHomeostasisDifficulty
  myCapabilityTimeScale := TCIDefaults.myCapabilityTimeScale
  myAccelerationErrorTimeScaleCoefficient := TCIDefaults.myAccelerationErrorTimeScaleCoefficient
  myAccelerationErrorNoiseIntensityCoefficient :=
    TCIDefaults.myAccelerationErrorNoiseIntensityCoefficient
  myActionStepLengthCoefficient := TCIDefaults.myActionStepLengthCoefficient
  myMinActionStepLength := TCIDefaults.myMinActionStepLength
  myMaxActionStepLength := TCIDefaults.myMaxActionStepLength
  mySpeedPerceptionErrorTimeScaleCoefficient :=
    TCIDefaults.mySpeedPerceptionErrorTimeScaleCoefficient
  mySpeedPerceptionErrorNoiseIntensityCoefficient :=
    TCIDefaults.mySpeedPerceptionErrorNoiseIntensityCoefficient
  myHeadwayPerceptionErrorTimeScaleCoefficient :=
    TCIDefaults.myHeadwayPerceptionErrorTimeScaleCoefficient
  myHeadwayPerceptionErrorNoiseIntensityCoefficient :=
    TCIDefaults.myHeadwayPerceptionErrorNoiseIntensityCoefficient
  myAccelerationError := ⟨0, 1, 1⟩
  myHeadwayPerceptionError := ⟨0, 1, 1⟩
  mySpeedPerceptionError := ⟨0, 1, 1⟩
  myTaskDemand := 0
  myTaskCapability := TCIDefaults.myMaxTaskCapability
  myCurrentDrivingDifficulty := 0 / TCIDefaults.myMaxTaskCapability
  myActionStepLength := TS
  myStepDuration := TS
  myLastUpdateTime := SIMTIME - TS
  myTrafficItems := []
  myNewTrafficItems := []
  items := items

/-- Lines 166-170; `SIMTIME` is the current simulation time. -/
def updateStepDuration (s : MSCFModel_TCI) (SIMTIME : ℚ) : MSCFModel_TCI :=
  { s with myStepDuration := SIMTIME - s.myLastUpdateTime, myLastUpdateTime := SIMTIME }

/-- Lines 181-191. -/
def difficultyFunction (s : MSCFModel_TCI) (demandCapabilityQuotient : ℚ) : ℚ :=
  let difficulty :=
    if demandCapabilityQuotient ≤ 1 then
      s.mySubCriticalDifficultyCoefficient * demandCapabilityQuotient
    else
      s.mySubCriticalDifficultyCoefficient
        + (demandCapabilityQuotient - 1) * s.mySuperCriticalDifficultyCoefficient
  MIN2 s.myMaxDifficulty difficulty

/-- Lines 173-178; `none` is a failed assertion. -/
def calculateDrivingDifficulty (s : MSCFModel_TCI) (capability demand : ℚ) :
    Option MSCFModel_TCI :=
  if ¬ capability > 0 then none
  else if ¬ demand ≥ 0 then none
  else some { s with myCurrentDrivingDifficulty := s.difficultyFunction (demand / capability) }

/-- Lines 194-197. -/
def adaptTaskCapability (s : MSCFModel_TCI) : MSCFModel_TCI :=
  { s with
    myTaskCapability := s.myTaskCapability
      + s.myCapabilityTimeScale * s.myStepDuration
        * (s.myTaskDemand - s.myHomeostasisDifficulty * s.myTaskCapability) }

/-- Lines 225-234.  The method is `const`: it changes the process it is handed
and nothing of the model. -/
def updateErrorProcess (m : CMath) (s : MSCFModel_TCI) (errorProcess : OUProcess)
    (timeScaleCoefficient noiseIntensityCoefficient : ℚ) (randNorm : ℚ) : OUProcess :=
  if s.myCurrentDrivingDifficulty = 0 then
    errorProcess.setState 0
  else
    let p1 := errorProcess.setTimeScale (timeScaleCoefficient / s.myCurrentDrivingDifficulty)
    let p2 := p1.setNoiseIntensity (s.myCurrentDrivingDifficulty * noiseIntensityCoefficient)
    p2.step m s.myStepDuration randNorm

/-- Lines 200-203. -/
def updateAccelerationError (m : CMath) (s : MSCFModel_TCI) (randNorm : ℚ) : MSCFModel_TCI :=
  { s with
    myAccelerationError := updateErrorProcess m s s.myAccelerationError
      s.myAccelerationErrorTimeScaleCoefficient
      s.myAccelerationErrorNoiseIntensityCoefficient randNorm }

/-- Lines 205-208. -/
def updateSpeedPerceptionError (m : CMath) (s : MSCFModel_TCI) (randNorm : ℚ) :
    MSCFModel_TCI :=
  { s with
    mySpeedPerceptionError := updateErrorProcess m s s.mySpeedPerceptionError
      s.mySpeedPerceptionErrorTimeScaleCoefficient
      s.mySpeedPerceptionErrorNoiseIntensityCoefficient randNorm }

/-- Lines 210-213. -/
def updateHeadwayPerceptionError (m : CMath) (s : MSCFModel_TCI) (randNorm : ℚ) :
    MSCFModel_TCI :=
  { s with
    myHeadwayPerceptionError := updateErrorProcess m s s.myHeadwayPerceptionError
      s.myHeadwayPerceptionErrorTimeScaleCoefficient
      s.myHeadwayPerceptionErrorNoiseIntensityCoefficient randNorm }

/-- Lines 215-222. -/
def updateActionStepLength (s : MSCFModel_TCI) : MSCFModel_TCI :=
  if s.myActionStepLengthCoefficient * s.myCurrentDrivingDifficulty ≤ s.myMinActionStepLength then
    { s with myActionStepLength := s.myMinActionStepLength }
  else
    { s with
      myActionStepLength :=
        MIN2 (s.myActionStepLengthCoefficient * s.myCurrentDrivingDifficulty
          - s.myMinActionStepLength) s.myMaxActionStepLength }

/-- Lines 283-286: the body is empty. -/
def calculateIntegrationDemandAndTime (s : MSCFModel_TCI) (_ti : Nat) : MSCFModel_TCI := s

/-- Lines 289-361, on the object that `ti` addresses. -/
def calculateLatentDemand (s : MSCFModel_TCI) (ti : Nat) : MSCFModel_TCI :=
  { s with items := Function.update s.items ti (MSTrafficItem.calculateLatentDemand (s.items ti)) }

/-- Lines 364-368. -/
def integrateDemand (s : MSCFModel_TCI) (ti : Nat) : MSCFModel_TCI :=
  let s1 := { s with myMaxTaskDemand := s.myMaxTaskDemand + (s.items ti).integrationDemand }
  { s1 with myMaxTaskDemand := s1.myMaxTaskDemand + (s1.items ti).latentDemand }

/-- Lines 272-280, on the object that `ti` addresses. -/
def updateItemIntegration (s : MSCFModel_TCI) (ti : Nat) : MSCFModel_TCI :=
  { s with
    items := Function.update s.items ti
      (MSTrafficItem.updateItemIntegration s.myStepDuration (s.items ti)) }

/-- Lines 238-263.  `ti` is the pointer the caller passes; in the branch of a
known item the local pointer is redirected to the stored object. -/
def registerTrafficItem (s : MSCFModel_TCI) (ti : Nat) : MSCFModel_TCI :=
  match mapFind s.myNewTrafficItems (s.items ti).id_hash with
  | some _ => s
  | none =>
    let knownTiIt := mapFind s.myTrafficItems (s.items ti).id_hash
    let s1 : MSCFModel_TCI :=
      match knownTiIt with
      | none => s.calculateIntegrationDemandAndTime ti
      | some _ => s
    let ti1 : Nat :=
      match knownTiIt with
      | none => ti
      | some second => second
    let s2 := s1.calculateLatentDemand ti1
    let s3 := s2.integrateDemand ti1
    let s4 : MSCFModel_TCI :=
      if (s3.items ti1).remainingIntegrationTime > 0 then s3.updateItemIntegration ti1 else s3
    { s4 with myNewTrafficItems := mapAssign s4.myNewTrafficItems (s4.items ti1).id_hash ti1 }

/-- The representation invariant of the known-items table: every entry files
the item it points to under that item's own identity hash.  The table starts
empty and no operation of the model writes to it (`flushTrafficItems`, which
would copy the new-item table into it, is commented out), so the invariant
holds in every state the model can reach. -/
def knownItemsKeyed (s : MSCFModel_TCI) : Prop :=
  ∀ entry ∈ s.myTrafficItems, (s.items entry.2).id_hash = entry.1

instance (s : MSCFModel_TCI) : Decidable s.knownItemsKeyed := by
  unfold knownItemsKeyed
  infer_instance

/-- Lines 173-178 with the state the object is left in.  `Except.error s1` is a
failed assertion, the object being in state `s1` when the program stops;
`Except.ok s1` is a return with the object in state `s1`.  The two assertions
come before the only assignment of the function. -/
def calculateDrivingDifficultyRun (s : MSCFModel_TCI) (capability demand : ℚ) :
    Except MSCFModel_TCI MSCFModel_TCI :=
  if ¬ capability > 0 then Except.error s
  else if ¬ demand ≥ 0 then Except.error s
  else
    Except.ok { s with myCurrentDrivingDifficulty := s.difficultyFunction (demand / capability) }

/-- Lines 141-147.  The method is `const` and reads no member of the class
but the two functions of the base class. -/
def stopSpeed (base : MSCFModel) (veh : MSVehicle) (speed gap : ℚ) : ℚ :=
  MIN2 (base.maximumSafeStopSpeed gap speed false veh.getActionStepLengthSecs)
    (base.maxNextSpeed speed veh)

/-- Lines 150-157.  The method is `const` and reads no member of the class
but the three functions of the base class. -/
def followSpeed (base : MSCFModel) (veh : MSVehicle) (speed gap predSpeed predMaxDecel : ℚ) :
    ℚ :=
  let vsafe := base.maximumSafeFollowSpeed gap speed predSpeed predMaxDecel
  let vmin := base.minNextSpeed speed
  let vmax := base.maxNextSpeed speed veh
  MAX2 (MIN2 vsafe vmax) vmin

/-- One call of an operation of the model by the simulation: the per-step
updates of lines 166-234 and `registerTrafficItem`, with the arguments of the
call (the simulation time, the capability and demand handed over, the random
draw, the pointer to the item). -/
inductive Operation where
  | updateStepDuration (SIMTIME : ℚ)
  | calculateDrivingDifficulty (capability demand : ℚ)
  | updateAccelerationError (randNorm : ℚ)
  | updateSpeedPerceptionError (randNorm : ℚ)
  | updateHeadwayPerceptionError (randNorm : ℚ)
  | updateActionStepLength
  | adaptTaskCapability
  | registerTrafficItem (ti : Nat)

/-- The state after one operation; `none` is a failed assertion. -/
def perform (m : CMath) (s : MSCFModel_TCI) : Operation → Option MSCFModel_TCI
  | .updateStepDuration SIMTIME => some (s.updateStepDuration SIMTIME)
  | .calculateDrivingDifficulty capability demand =>
    s.calculateDrivingDifficulty capability demand
  | .updateAccelerationError randNorm => some (s.updateAccelerationError m randNorm)
  | .updateSpeedPerceptionError randNorm => some (s.updateSpeedPerceptionError m randNorm)
  | .updateHeadwayPerceptionError randNorm => some (s.updateHeadwayPerceptionError m randNorm)
  | .updateActionStepLength => some s.updateActionStepLength
  | .adaptTaskCapability => some s.adaptTaskCapability
  | .registerTrafficItem ti => some (s.registerTrafficItem ti)

/-- The state after a sequence of operations, in this order; `none` if one
of them fails an assertion.  The states the model can reach are the values
`some s1` of `performAll` from a constructed model. -/
def performAll (m : CMath) (s : MSCFModel_TCI) : List Operation → Option MSCFModel_TCI
  | [] => some s
  | op :: rest =>
    match perform m s op with
    | none => none
    | some s1 => performAll m s1 rest

end MSCFModel_TCI

/-! ## Concrete inputs used to exercise the theorems -/

/-- A junction item: 3 incoming lanes, 2 foe links, distance 5, identity hash
7, integration demand 4 with 3 seconds of integration time left. -/
def junctionItem : MSTrafficItem :=
  { type := .TRAFFIC_ITEM_JUNCTION 3 2 5, id_hash := 7, remainingIntegrationTime := 3,
    integrationDemand := 4, latentDemand := 0 }

/-- A memory in which every address holds `junctionItem`. -/
def junctionMemory : Nat → MSTrafficItem := fun _ => junctionItem

/-- The model as constructed with a step length of one second at time 0. -/
def freshModel : MSCFModel_TCI := MSCFModel_TCI.construct 1 0 junctionMemory

/-- A memory in which the object at address 5 carries the identity hash 9 and
every other object is `junctionItem` (hash 7). -/
def misfiledMemory : Nat → MSTrafficItem :=
  fun a => if a = 5 then { junctionItem with id_hash := 9 } else junctionItem

/-- A state that the model cannot reach: its known-items table files the
object at address 5, whose hash is 9, under the hash 7. -/
def misfiledModel : MSCFModel_TCI :=
  { freshModel with myTrafficItems := [(7, 5)], items := misfiledMemory }

/-- A vehicle item whose ego vehicle has no edge, carrying the integration
demand 3 and the latent demand 2, with identity hash 11. -/
def strandedVehicleItem : MSTrafficItem :=
  { type := .TRAFFIC_ITEM_VEHICLE none (some 4) none 100, id_hash := 11,
    remainingIntegrationTime := 0, integrationDemand := 3, latentDemand := 2 }

/-- A memory that holds `strandedVehicleItem` at address 1, the same item
without any demand at address 2, and `junctionItem` elsewhere. -/
def vehicleMemory : Nat → MSTrafficItem :=
  fun a =>
    if a = 1 then strandedVehicleItem
    else if a = 2 then { strandedVehicleItem with integrationDemand := 0, latentDemand := 0 }
    else junctionItem

/-- The model as constructed in `vehicleMemory`. -/
def vehicleModel : MSCFModel_TCI := MSCFModel_TCI.construct 1 0 vehicleMemory

/-- A stand-in for `<cmath>` with rational values: `exp y` is `1 / (1 - y)` for
`y <= 0` and `1 + y` above, which is 1 at 0 and lies in `(0, 1]` for `y <= 0`, as
the exponential does; `sqrt` is the identity. -/
def rationalCMath : CMath :=
  { exp := fun y => if y ≤ 0 then 1 / (1 - y) else 1 + y, sqrt := fun y => y }

/-- A base class whose safe speed is the gap and whose next speed is within
one unit of the current speed. -/
def sampleBase : MSCFModel :=
  { maximumSafeStopSpeed := fun gap _ _ _ => gap,
    maximumSafeFollowSpeed := fun gap _ _ _ => gap,
    minNextSpeed := fun speed => speed - 1,
    maxNextSpeed := fun speed _ => speed + 1 }

/-- One simulation step of the freshly constructed model: measure the step,
recompute the difficulty, update the three errors and the action step length,
adapt the capability and register two items. -/
def sampleStep : List MSCFModel_TCI.Operation :=
  [.updateStepDuration 1, .calculateDrivingDifficulty 10 0, .updateAccelerationError 1,
    .updateSpeedPerceptionError 2, .updateHeadwayPerceptionError 3, .updateActionStepLength,
    .adaptTaskCapability, .registerTrafficItem 0, .registerTrafficItem 1]

/-- Four simulation steps of one second each in which the simulation hands the
same item (address 0) to the model once per step. -/
def repeatedRegistration : List MSCFModel_TCI.Operation :=
  [.updateStepDuration 0, .registerTrafficItem 0, .updateStepDuration 1,
    .registerTrafficItem 0, .updateStepDuration 2, .registerTrafficItem 0,
    .updateStepDuration 3, .registerTrafficItem 0]

/-! ## `MIN2` -/

theorem MIN2_eq_min (a b : ℚ) : MIN2 a b = min a b := by
  unfold MIN2
  split_ifs with h
  · exact (min_eq_left h.le).symm
  · exact (min_eq_right (not_lt.mp h)).symm

theorem MIN2_le_left (a b : ℚ) : MIN2 a b ≤ a := by
  rw [MIN2_eq_min]; exact min_le_left a b

theorem MIN2_le_right (a b : ℚ) : MIN2 a b ≤ b := by
  rw [MIN2_eq_min]; exact min_le_right a b

theorem le_MIN2 {a b c : ℚ} (ha : c ≤ a) (hb : c ≤ b) : c ≤ MIN2 a b := by
  rw [MIN2_eq_min]; exact le_min ha hb

namespace MSCFModel_TCI

/-! ## The difficulty engine -/

theorem difficultyFunction_sub (s : MSCFModel_TCI) (q : ℚ) (hq : q ≤ 1) :
    s.difficultyFunction q
      = min s.myMaxDifficulty (s.mySubCriticalDifficultyCoefficient * q) := by
  simp only [difficultyFunction, MIN2_eq_min, if_pos hq]

theorem difficultyFunction_super (s : MSCFModel_TCI) (q : ℚ) (hq : 1 < q) :
    s.difficultyFunction q
      = min s.myMaxDifficulty
          (s.mySubCriticalDifficultyCoefficient
            + (q - 1) * s.mySuperCriticalDifficultyCoefficient) := by
  simp only [difficultyFunction, MIN2_eq_min, if_neg (not_le.mpr hq)]

theorem calculateDrivingDifficulty_of_valid (s : MSCFModel_TCI) (capability demand : ℚ)
    (hc : capability > 0) (hd : demand ≥ 0) :
    s.calculateDrivingDifficulty capability demand
      = some { s with
          myCurrentDrivingDifficulty := s.difficultyFunction (demand / capability) } := by
  simp [calculateDrivingDifficulty, hc, hd]

/-- C1: for capability > 0 and demand >= 0, `calculateDrivingDifficulty` does
not fault and stores exactly `difficultyFunction (demand / capability)` as the
current driving difficulty, where `difficultyFunction q` is
`min maxDifficulty (subCriticalCoeff * q)` for `q <= 1` and
`min maxDifficulty (subCriticalCoeff + (q - 1) * superCriticalCoeff)` for
`q > 1`; in the model as constructed (default coefficients), demand 20 and
capability 10 give the difficulty 11/10. -/
theorem calculateDrivingDifficulty_stores_difficultyFunction (s : MSCFModel_TCI)
    (capability demand : ℚ) (hc : capability > 0) (hd : demand ≥ 0) :
    (∃ s1, s.calculateDrivingDifficulty capability demand = some s1
      ∧ s1.myCurrentDrivingDifficulty = s.difficultyFunction (demand / capability))
    ∧ (∀ q : ℚ, q ≤ 1 →
        s.difficultyFunction q
          = min s.myMaxDifficulty (s.mySubCriticalDifficultyCoefficient * q))
    ∧ (∀ q : ℚ, q > 1 →
        s.difficultyFunction q
          = min s.myMaxDifficulty
              (s.mySubCriticalDifficultyCoefficient
                + (q - 1) * s.mySuperCriticalDifficultyCoefficient))
    ∧ (∀ (TS SIMTIME : ℚ) (items : Nat → MSTrafficItem),
        ((construct TS SIMTIME items).calculateDrivingDifficulty 10 20).map
            (fun s1 => s1.myCurrentDrivingDifficulty)
          = some (11 / 10)) := by
  refine ⟨⟨_, calculateDrivingDifficulty_of_valid s capability demand hc hd, rfl⟩,
    fun q hq => difficultyFunction_sub s q hq,
    fun q hq => difficultyFunction_super s q hq, ?_⟩
  intro TS SIMTIME items
  rw [calculateDrivingDifficulty_of_valid _ _ _ (by norm_num) (by norm_num)]
  simp only [Option.map_some', Option.some.injEq]
  rw [difficultyFunction_super _ _ (by norm_num)]
  simp only [construct, TCIDefaults.myMaxDifficulty,
    TCIDefaults.mySubCriticalDifficultyCoefficient,
    TCIDefaults.mySuperCriticalDifficultyCoefficient]
  norm_num

theorem calculateDrivingDifficulty_stores_difficultyFunction_witness :
    (10 : ℚ) > 0 ∧ (20 : ℚ) ≥ 0
    ∧ ∃ s1, freshModel.calculateDrivingDifficulty 10 20 = some s1
      ∧ s1.myCurrentDrivingDifficulty = freshModel.difficultyFunction (20 / 10) :=
  ⟨by norm_num, by norm_num,
    (calculateDrivingDifficulty_stores_difficultyFunction freshModel 10 20
      (by norm_num) (by norm_num)).1⟩

/-! ## The action step length -/

/-- C2, as stated, fails in two ways.  With a minimum above the maximum
(difficulty 0, minimum 2, maximum 1) the result is the minimum 2, above the
maximum; and with coefficient 1, difficulty 3, minimum 2 and maximum 10 the
result is `min (3 - 2) 10 = 1`, below the minimum. -/
theorem updateActionStepLength_outside_bounds :
    ({ freshModel with
        myCurrentDrivingDifficulty := 0, myMinActionStepLength := 2,
        myMaxActionStepLength := 1 }.updateActionStepLength.myActionStepLength = 2
      ∧ (1 : ℚ) < 2)
    ∧ ({ freshModel with
        myActionStepLengthCoefficient := 1, myCurrentDrivingDifficulty := 3,
        myMinActionStepLength := 2,
        myMaxActionStepLength := 10 }.updateActionStepLength.myActionStepLength = 1
      ∧ (1 : ℚ) < 2) := by
  refine ⟨⟨?_, by norm_num⟩, ⟨?_, by norm_num⟩⟩
  · simp [updateActionStepLength]
  · norm_num [updateActionStepLength, MIN2]

/-- C2 (amended): for a non-negative minimum that does not exceed the maximum,
the action step length after `updateActionStepLength` lies in
`[0, maxActionStepLength]`; it is exactly `minActionStepLength` when
`actionStepLengthCoefficient * difficulty <= minActionStepLength`, and it lies
in `[minActionStepLength, maxActionStepLength]` when `minActionStepLength` is
0, its default. -/
theorem updateActionStepLength_bounds (s : MSCFModel_TCI)
    (hmin : 0 ≤ s.myMinActionStepLength)
    (hminmax : s.myMinActionStepLength ≤ s.myMaxActionStepLength) :
    0 ≤ s.updateActionStepLength.myActionStepLength
    ∧ s.updateActionStepLength.myActionStepLength ≤ s.myMaxActionStepLength
    ∧ (s.myActionStepLengthCoefficient * s.myCurrentDrivingDifficulty
          ≤ s.myMinActionStepLength →
        s.updateActionStepLength.myActionStepLength = s.myMinActionStepLength)
    ∧ (s.myMinActionStepLength = 0 →
        s.myMinActionStepLength ≤ s.updateActionStepLength.myActionStepLength) := by
  by_cases h : s.myActionStepLengthCoefficient * s.myCurrentDrivingDifficulty
      ≤ s.myMinActionStepLength
  · have e : s.updateActionStepLength.myActionStepLength = s.myMinActionStepLength := by
      simp [updateActionStepLength, h]
    rw [e]
    exact ⟨hmin, hminmax, fun _ => rfl, fun _ => le_refl _⟩
  · have e : s.updateActionStepLength.myActionStepLength
        = MIN2 (s.myActionStepLengthCoefficient * s.myCurrentDrivingDifficulty
            - s.myMinActionStepLength) s.myMaxActionStepLength := by
      simp [updateActionStepLength, h]
    have hpos : 0 ≤ s.myActionStepLengthCoefficient * s.myCurrentDrivingDifficulty
        - s.myMinActionStepLength := by linarith [not_le.mp h]
    have h0 : 0 ≤ s.updateActionStepLength.myActionStepLength := by
      rw [e]; exact le_MIN2 hpos (le_trans hmin hminmax)
    refine ⟨h0, ?_, fun h1 => absurd h1 h, fun h1 => ?_⟩
    · rw [e]; exact MIN2_le_right _ _
    · rw [h1]; exact h0

theorem updateActionStepLength_bounds_witness :
    (0 : ℚ) ≤ freshModel.myMinActionStepLength
    ∧ freshModel.myMinActionStepLength ≤ freshModel.myMaxActionStepLength
    ∧ 0 ≤ freshModel.updateActionStepLength.myActionStepLength
    ∧ freshModel.updateActionStepLength.myActionStepLength
        ≤ freshModel.myMaxActionStepLength :=
  have hmin : (0 : ℚ) ≤ freshModel.myMinActionStepLength := by
    norm_num [freshModel, construct, TCIDefaults.myMinActionStepLength]
  have hminmax : freshModel.myMinActionStepLength ≤ freshModel.myMaxActionStepLength := by
    norm_num [freshModel, construct, TCIDefaults.myMinActionStepLength,
      TCIDefaults.myMaxActionStepLength]
  ⟨hmin, hminmax, (updateActionStepLength_bounds freshModel hmin hminmax).1,
    (updateActionStepLength_bounds freshModel hmin hminmax).2.1⟩

/-! ## Capability adaptation -/

/-- C3, as stated, fails: the model constructed with a step length of two
seconds has capability 10, demand 0 and step duration 2, and
`adaptTaskCapability` takes its capability to `10 + 1/2 * 2 * (0 - 3/2 * 10)`,
which is -5. -/
theorem adaptTaskCapability_negative :
    (construct 2 0 junctionMemory).myTaskCapability > 0
    ∧ (construct 2 0 junctionMemory).myTaskDemand ≥ 0
    ∧ (construct 2 0 junctionMemory).myStepDuration ≥ 0
    ∧ (construct 2 0 junctionMemory).adaptTaskCapability.myTaskCapability = -5 := by
  norm_num [adaptTaskCapability, construct, TCIDefaults.myMaxTaskCapability,
    TCIDefaults.myCapabilityTimeScale, TCIDefaults.myHomeostasisDifficulty]

/-- C3 (amended): no floor is applied; `adaptTaskCapability` keeps the
capability positive when the step is short enough, that is for every state with
taskCapability > 0, taskDemand >= 0, capabilityTimeScale >= 0, stepDuration >= 0
and `capabilityTimeScale * stepDuration * homeostasisDifficulty < 1` (with the
default coefficients: stepDuration < 4/3). -/
theorem adaptTaskCapability_pos (s : MSCFModel_TCI)
    (hcap : s.myTaskCapability > 0) (hdem : s.myTaskDemand ≥ 0)
    (hk : s.myCapabilityTimeScale ≥ 0) (hdt : s.myStepDuration ≥ 0)
    (hstep : s.myCapabilityTimeScale * s.myStepDuration * s.myHomeostasisDifficulty < 1) :
    s.adaptTaskCapability.myTaskCapability > 0 := by
  have e : s.adaptTaskCapability.myTaskCapability
      = s.myTaskCapability
          * (1 - s.myCapabilityTimeScale * s.myStepDuration * s.myHomeostasisDifficulty)
        + s.myCapabilityTimeScale * s.myStepDuration * s.myTaskDemand := by
    simp only [adaptTaskCapability]; ring
  rw [e]
  have h1 : 0 < s.myTaskCapability
      * (1 - s.myCapabilityTimeScale * s.myStepDuration * s.myHomeostasisDifficulty) :=
    mul_pos hcap (by linarith)
  have h2 : 0 ≤ s.myCapabilityTimeScale * s.myStepDuration * s.myTaskDemand :=
    mul_nonneg (mul_nonneg hk hdt) hdem
  linarith

theorem adaptTaskCapability_pos_witness :
    freshModel.myTaskCapability > 0
    ∧ freshModel.myStepDuration = 1
    ∧ freshModel.adaptTaskCapability.myTaskCapability > 0 :=
  ⟨by norm_num [freshModel, construct, TCIDefaults.myMaxTaskCapability], rfl,
    adaptTaskCapability_pos freshModel
      (by norm_num [freshModel, construct, TCIDefaults.myMaxTaskCapability])
      (by norm_num [freshModel, construct])
      (by norm_num [freshModel, construct, TCIDefaults.myCapabilityTimeScale])
      (by norm_num [freshModel, construct])
      (by norm_num [freshModel, construct, TCIDefaults.myCapabilityTimeScale,
        TCIDefaults.myHomeostasisDifficulty])⟩

/-! ## The error processes -/

theorem updateErrorProcess_of_zero (m : CMath) (s : MSCFModel_TCI) (errorProcess : OUProcess)
    (timeScaleCoefficient noiseIntensityCoefficient randNorm : ℚ)
    (h : s.myCurrentDrivingDifficulty = 0) :
    s.updateErrorProcess m errorProcess timeScaleCoefficient noiseIntensityCoefficient randNorm
      = { errorProcess with myState := 0 } := by
  simp [updateErrorProcess, h, OUProcess.setState]

theorem errorUpdates_of_zero (m : CMath) (s : MSCFModel_TCI) (r1 r2 r3 : ℚ)
    (h : s.myCurrentDrivingDifficulty = 0) :
    (((s.updateAccelerationError m r1).updateSpeedPerceptionError m
          r2).updateHeadwayPerceptionError m r3).myAccelerationError.getState = 0
    ∧ (((s.updateAccelerationError m r1).updateSpeedPerceptionError m
          r2).updateHeadwayPerceptionError m r3).mySpeedPerceptionError.getState = 0
    ∧ (((s.updateAccelerationError m r1).updateSpeedPerceptionError m
          r2).updateHeadwayPerceptionError m r3).myHeadwayPerceptionError.getState = 0 := by
  simp [updateAccelerationError, updateSpeedPerceptionError, updateHeadwayPerceptionError,
    updateErrorProcess, OUProcess.setState, OUProcess.getState, h]

/-- C4: when the current driving difficulty is exactly 0, `updateErrorProcess`
returns the process with state 0 and with its time scale and noise intensity
untouched (no OU step), for every prior process, coefficient pair, step
duration, random draw and every `exp` and `sqrt`; and from the constructed
model, after any measured step duration, `calculateDrivingDifficulty` on the
model's capability 10 and demand 0 succeeds with difficulty 0 and the
acceleration, speed-perception and headway-perception updates leave all three
error states at 0. -/
theorem updateErrorProcess_zero_difficulty (m : CMath) :
    (∀ (s : MSCFModel_TCI) (errorProcess : OUProcess)
        (timeScaleCoefficient noiseIntensityCoefficient randNorm : ℚ),
        s.myCurrentDrivingDifficulty = 0 →
        s.updateErrorProcess m errorProcess timeScaleCoefficient noiseIntensityCoefficient
            randNorm
          = { errorProcess with myState := 0 })
    ∧ (∀ (TS SIMTIME now r1 r2 r3 : ℚ) (items : Nat → MSTrafficItem),
        ∃ s1,
          ((construct TS SIMTIME items).updateStepDuration now).calculateDrivingDifficulty
              ((construct TS SIMTIME items).updateStepDuration now).myTaskCapability
              ((construct TS SIMTIME items).updateStepDuration now).myTaskDemand
            = some s1
          ∧ s1.myTaskCapability = 10 ∧ s1.myTaskDemand = 0
          ∧ s1.myStepDuration = now - (SIMTIME - TS)
          ∧ s1.myCurrentDrivingDifficulty = 0
          ∧ (((s1.updateAccelerationError m r1).updateSpeedPerceptionError m
                r2).updateHeadwayPerceptionError m r3).myAccelerationError.getState = 0
          ∧ (((s1.updateAccelerationError m r1).updateSpeedPerceptionError m
                r2).updateHeadwayPerceptionError m r3).mySpeedPerceptionError.getState = 0
          ∧ (((s1.updateAccelerationError m r1).updateSpeedPerceptionError m
                r2).updateHeadwayPerceptionError m r3).myHeadwayPerceptionError.getState
              = 0) := by
  refine ⟨fun s p tc nc r h => updateErrorProcess_of_zero m s p tc nc r h, ?_⟩
  intro TS SIMTIME now r1 r2 r3 items
  have hq : ((construct TS SIMTIME items).updateStepDuration now).myTaskDemand
      / ((construct TS SIMTIME items).updateStepDuration now).myTaskCapability = 0 := by
    simp [updateStepDuration, construct]
  have hd : ((construct TS SIMTIME items).updateStepDuration now).difficultyFunction
      (((construct TS SIMTIME items).updateStepDuration now).myTaskDemand
        / ((construct TS SIMTIME items).updateStepDuration now).myTaskCapability) = 0 := by
    rw [hq, difficultyFunction_sub _ _ (by norm_num)]
    norm_num [updateStepDuration, construct, TCIDefaults.myMaxDifficulty]
  have hcap : ((construct TS SIMTIME items).updateStepDuration now).myTaskCapability = 10 :=
    rfl
  have hdem : ((construct TS SIMTIME items).updateStepDuration now).myTaskDemand = 0 := rfl
  refine ⟨_, calculateDrivingDifficulty_of_valid _ _ _ ?_ ?_, hcap, hdem, rfl, hd, ?_⟩
  · rw [hcap]; norm_num
  · rw [hdem]
  · exact errorUpdates_of_zero m _ r1 r2 r3 hd

theorem updateErrorProcess_zero_difficulty_witness :
    freshModel.myCurrentDrivingDifficulty = 0
    ∧ freshModel.updateErrorProcess ⟨fun x => x, fun x => x⟩ ⟨5, 2, 3⟩ 1 1 4
      = { ( ⟨5, 2, 3⟩ : OUProcess) with myState := 0 } :=
  have h : freshModel.myCurrentDrivingDifficulty = 0 := by
    norm_num [freshModel, construct]
  ⟨h, (updateErrorProcess_zero_difficulty ⟨fun x => x, fun x => x⟩).1 freshModel ⟨5, 2, 3⟩
    1 1 4 h⟩

/-! ## Bounds and monotonicity of the difficulty function -/

theorem difficultyFunction_le_max (s : MSCFModel_TCI) (q : ℚ) :
    s.difficultyFunction q ≤ s.myMaxDifficulty := by
  simp only [difficultyFunction]
  exact MIN2_le_left _ _

theorem difficultyFunction_nonneg (s : MSCFModel_TCI) (q : ℚ)
    (hsub : 0 ≤ s.mySubCriticalDifficultyCoefficient)
    (hsuper : 0 ≤ s.mySuperCriticalDifficultyCoefficient)
    (hmax : 0 ≤ s.myMaxDifficulty) (hq : 0 ≤ q) :
    0 ≤ s.difficultyFunction q := by
  simp only [difficultyFunction]
  refine le_MIN2 hmax ?_
  split_ifs with h
  · exact mul_nonneg hsub hq
  · have : 0 ≤ (q - 1) * s.mySuperCriticalDifficultyCoefficient :=
      mul_nonneg (by linarith [not_le.mp h]) hsuper
    linarith

/-- C9: with non-negative sub- and super-critical coefficients and
maxDifficulty >= 0, for every capability > 0 and demand >= 0 the current
driving difficulty after `calculateDrivingDifficulty` lies in
`[0, maxDifficulty]` and `difficultyFunction 0 = 0`; the upper bound
`difficultyFunction q <= maxDifficulty` holds for every `q` and every value of
the coefficients. -/
theorem difficulty_in_range (s : MSCFModel_TCI) :
    (∀ q : ℚ, s.difficultyFunction q ≤ s.myMaxDifficulty)
    ∧ (0 ≤ s.mySubCriticalDifficultyCoefficient →
        0 ≤ s.mySuperCriticalDifficultyCoefficient →
        0 ≤ s.myMaxDifficulty →
        s.difficultyFunction 0 = 0
        ∧ ∀ capability demand : ℚ, capability > 0 → demand ≥ 0 →
            ∃ s1, s.calculateDrivingDifficulty capability demand = some s1
              ∧ 0 ≤ s1.myCurrentDrivingDifficulty
              ∧ s1.myCurrentDrivingDifficulty ≤ s1.myMaxDifficulty) := by
  refine ⟨difficultyFunction_le_max s, fun hsub hsuper hmax => ⟨?_, ?_⟩⟩
  · rw [difficultyFunction_sub _ _ (by norm_num), mul_zero]
    exact min_eq_right hmax
  · intro capability demand hc hd
    exact ⟨_, calculateDrivingDifficulty_of_valid s capability demand hc hd,
      difficultyFunction_nonneg s _ hsub hsuper hmax (div_nonneg hd hc.le),
      difficultyFunction_le_max s _⟩

theorem difficulty_in_range_witness :
    (0 : ℚ) ≤ freshModel.mySubCriticalDifficultyCoefficient
    ∧ (0 : ℚ) ≤ freshModel.mySuperCriticalDifficultyCoefficient
    ∧ (0 : ℚ) ≤ freshModel.myMaxDifficulty
    ∧ freshModel.difficultyFunction 0 = 0 :=
  have hsub : (0 : ℚ) ≤ freshModel.mySubCriticalDifficultyCoefficient := by
    norm_num [freshModel, construct, TCIDefaults.mySubCriticalDifficultyCoefficient]
  have hsuper : (0 : ℚ) ≤ freshModel.mySuperCriticalDifficultyCoefficient := by
    norm_num [freshModel, construct, TCIDefaults.mySuperCriticalDifficultyCoefficient]
  have hmax : (0 : ℚ) ≤ freshModel.myMaxDifficulty := by
    norm_num [freshModel, construct, TCIDefaults.myMaxDifficulty]
  ⟨hsub, hsuper, hmax, ((difficulty_in_range freshModel).2 hsub hsuper hmax).1⟩

/-- C10: with non-negative sub- and super-critical coefficients,
`difficultyFunction` is non-decreasing: `q1 <= q2` gives
`difficultyFunction q1 <= difficultyFunction q2`, wherever the two points lie
relative to the kink at 1 and to the clamp. -/
theorem difficultyFunction_mono (s : MSCFModel_TCI)
    (hsub : 0 ≤ s.mySubCriticalDifficultyCoefficient)
    (hsuper : 0 ≤ s.mySuperCriticalDifficultyCoefficient)
    (q1 q2 : ℚ) (hq : q1 ≤ q2) :
    s.difficultyFunction q1 ≤ s.difficultyFunction q2 := by
  simp only [difficultyFunction, MIN2_eq_min]
  refine min_le_min (le_refl _) ?_
  split_ifs with h1 h2 h2
  · exact mul_le_mul_of_nonneg_left hq hsub
  · have a : s.mySubCriticalDifficultyCoefficient * q1
        ≤ s.mySubCriticalDifficultyCoefficient * 1 := mul_le_mul_of_nonneg_left h1 hsub
    have b : 0 ≤ (q2 - 1) * s.mySuperCriticalDifficultyCoefficient :=
      mul_nonneg (by linarith [not_le.mp h2]) hsuper
    linarith
  · exact absurd (le_trans hq h2) h1
  · have : (q1 - 1) * s.mySuperCriticalDifficultyCoefficient
        ≤ (q2 - 1) * s.mySuperCriticalDifficultyCoefficient :=
      mul_le_mul_of_nonneg_right (by linarith) hsuper
    linarith

theorem difficultyFunction_mono_witness :
    (0 : ℚ) ≤ freshModel.mySubCriticalDifficultyCoefficient
    ∧ (0 : ℚ) ≤ freshModel.mySuperCriticalDifficultyCoefficient
    ∧ (1 / 2 : ℚ) ≤ 2
    ∧ freshModel.difficultyFunction (1 / 2) ≤ freshModel.difficultyFunction 2 :=
  have hsub : (0 : ℚ) ≤ freshModel.mySubCriticalDifficultyCoefficient := by
    norm_num [freshModel, construct, TCIDefaults.mySubCriticalDifficultyCoefficient]
  have hsuper : (0 : ℚ) ≤ freshModel.mySuperCriticalDifficultyCoefficient := by
    norm_num [freshModel, construct, TCIDefaults.mySuperCriticalDifficultyCoefficient]
  ⟨hsub, hsuper, by norm_num,
    difficultyFunction_mono freshModel hsub hsuper (1 / 2) 2 (by norm_num)⟩

end MSCFModel_TCI

namespace MSTrafficItem

/-! ## Latent demand of a junction -/

theorem calculateLatentDemand_junction (ti : MSTrafficItem) (n m : Nat) (d : ℚ)
    (h : ti.type = .TRAFFIC_ITEM_JUNCTION n m d) :
    ti.calculateLatentDemand
      = { ti with latentDemand := (1 / 10 * (n : ℚ) + 1 / 2 * (m : ℚ)) / (1 + d * (1 / 10)) } := by
  simp only [calculateLatentDemand, h]

/-- C8: for a junction item with `n` incoming lanes, `m` foe links of the
ego approach link and distance `d`, `calculateLatentDemand` sets the latent
demand of the item to `(1/10 * n + 1/2 * m) / (1 + 1/10 * d)`, whatever it was
before, and leaves the other fields of the item as they are; for `n = 3`,
`m = 2`, `d = 5` the value is 13/15.  (At `d = -10` the divisor is 0; the
quotient of the formula is then the one of `ℚ`.) -/
theorem calculateLatentDemand_junction_value (id_hash : Nat)
    (remainingIntegrationTime integrationDemand latentDemand : ℚ) (n m : Nat) (d : ℚ) :
    calculateLatentDemand
        ⟨.TRAFFIC_ITEM_JUNCTION n m d, id_hash, remainingIntegrationTime, integrationDemand,
          latentDemand⟩
      = ⟨.TRAFFIC_ITEM_JUNCTION n m d, id_hash, remainingIntegrationTime, integrationDemand,
          (1 / 10 * (n : ℚ) + 1 / 2 * (m : ℚ)) / (1 + 1 / 10 * d)⟩
    ∧ (calculateLatentDemand
        ⟨.TRAFFIC_ITEM_JUNCTION 3 2 5, id_hash, remainingIntegrationTime, integrationDemand,
          latentDemand⟩).latentDemand = 13 / 15 := by
  refine ⟨?_, ?_⟩
  · rw [calculateLatentDemand_junction _ n m d rfl, mul_comm d]
  · rw [calculateLatentDemand_junction _ 3 2 5 rfl]
    norm_num

/-- C7, as stated, fails: a junction item with no incoming lane and no foe
link has latent demand 0 at distance 0 and at distance 1, so the demand at the
larger distance is not strictly smaller. -/
theorem calculateLatentDemand_junction_not_strict :
    (0 : ℚ) ≤ 0 ∧ (0 : ℚ) < 1
    ∧ ¬ (calculateLatentDemand ⟨.TRAFFIC_ITEM_JUNCTION 0 0 1, 7, 0, 0, 0⟩).latentDemand
        < (calculateLatentDemand ⟨.TRAFFIC_ITEM_JUNCTION 0 0 0, 7, 0, 0, 0⟩).latentDemand := by
  refine ⟨le_refl _, by norm_num, ?_⟩
  rw [calculateLatentDemand_junction _ 0 0 1 rfl, calculateLatentDemand_junction _ 0 0 0 rfl]
  norm_num

/-- C7 (amended): for incoming-lane count `n` and foe-link count `m` that are
not both 0, and distances `0 <= d1 < d2`, the latent demand that
`calculateLatentDemand` computes for a junction item at distance `d2` is
strictly smaller than at distance `d1`; for `n = m = 0` the two demands are
equal (both 0). -/
theorem calculateLatentDemand_junction_strictAnti (ti1 ti2 : MSTrafficItem) (n m : Nat)
    (d1 d2 : ℚ) (h1 : ti1.type = .TRAFFIC_ITEM_JUNCTION n m d1)
    (h2 : ti2.type = .TRAFFIC_ITEM_JUNCTION n m d2) (hd1 : 0 ≤ d1) (hd : d1 < d2) :
    (0 < n ∨ 0 < m → ti2.calculateLatentDemand.latentDemand
        < ti1.calculateLatentDemand.latentDemand)
    ∧ (n = 0 → m = 0 → ti2.calculateLatentDemand.latentDemand
        = ti1.calculateLatentDemand.latentDemand) := by
  rw [calculateLatentDemand_junction ti1 n m d1 h1,
    calculateLatentDemand_junction ti2 n m d2 h2]
  refine ⟨fun hnm => ?_, ?_⟩
  · have hn : (0 : ℚ) ≤ (n : ℚ) := Nat.cast_nonneg n
    have hm : (0 : ℚ) ≤ (m : ℚ) := Nat.cast_nonneg m
    have hpos : (0 : ℚ) < 1 / 10 * (n : ℚ) + 1 / 2 * (m : ℚ) := by
      rcases hnm with h | h
      · have : (0 : ℚ) < (n : ℚ) := Nat.cast_pos.mpr h
        linarith
      · have : (0 : ℚ) < (m : ℚ) := Nat.cast_pos.mpr h
        linarith
    show _ / _ < _ / _
    exact div_lt_div_of_pos_left hpos (by linarith) (by linarith)
  · rintro rfl rfl
    simp

theorem calculateLatentDemand_junction_strictAnti_witness :
    ((0 : ℚ) ≤ 5 ∧ (5 : ℚ) < 15 ∧ (0 < 3 ∨ 0 < 2))
    ∧ (calculateLatentDemand ⟨.TRAFFIC_ITEM_JUNCTION 3 2 15, 8, 0, 0, 0⟩).latentDemand
        < (calculateLatentDemand junctionItem).latentDemand :=
  ⟨⟨by norm_num, by norm_num, Or.inl (by norm_num)⟩,
    (calculateLatentDemand_junction_strictAnti junctionItem
      ⟨.TRAFFIC_ITEM_JUNCTION 3 2 15, 8, 0, 0, 0⟩ 3 2 5 15 rfl rfl (by norm_num)
      (by norm_num)).1 (Or.inl (by norm_num))⟩

/-! ## Lines 256-258: the guarded update of the integration clock -/

theorem advanceIntegration_of_done (dt : ℚ) (ti : MSTrafficItem)
    (h : ti.remainingIntegrationTime = 0) : ti.advanceIntegration dt = ti := by
  simp [advanceIntegration, h]

theorem advanceIntegration_expired (dt : ℚ) (ti : MSTrafficItem)
    (h : ti.remainingIntegrationTime > 0) (hdt : ti.remainingIntegrationTime - dt ≤ 0) :
    ti.advanceIntegration dt
      = { ti with remainingIntegrationTime := 0, integrationDemand := 0 } := by
  simp [advanceIntegration, updateItemIntegration, h, hdt]

theorem advanceIntegration_running (dt : ℚ) (ti : MSTrafficItem)
    (h : ti.remainingIntegrationTime > 0) (hdt : 0 < ti.remainingIntegrationTime - dt) :
    ti.advanceIntegration dt
      = { ti with remainingIntegrationTime := ti.remainingIntegrationTime - dt } := by
  simp [advanceIntegration, updateItemIntegration, h, not_le.mpr hdt]

end MSTrafficItem

/-! ## The item tables -/

theorem mapFind_mapAssign_self (m : TrafficItemMap) (key value : Nat) :
    mapFind (mapAssign m key value) key = some value := by
  induction m with
  | nil => simp [mapAssign, mapFind]
  | cons entry rest ih =>
    obtain ⟨k, v⟩ := entry
    simp only [mapAssign]
    split_ifs with h1 h2
    · simp [mapFind]
    · simp [mapFind]
    · simp [mapFind, h2, ih]

theorem mem_of_mapFind (m : TrafficItemMap) (key value : Nat)
    (h : mapFind m key = some value) : (key, value) ∈ m := by
  induction m with
  | nil => simp [mapFind] at h
  | cons entry rest ih =>
    obtain ⟨k, v⟩ := entry
    simp only [mapFind] at h
    split_ifs at h with hk
    · simp only [Option.some.injEq] at h
      rw [hk, h]
      exact List.mem_cons_self _ _
    · exact List.mem_cons_of_mem _ (ih h)

namespace MSTrafficItem

theorem calculateLatentDemand_id_hash (ti : MSTrafficItem) :
    ti.calculateLatentDemand.id_hash = ti.id_hash := by
  unfold calculateLatentDemand
  split
  · rfl
  · rfl
  · rfl
  · rfl
  · simp only; split_ifs <;> rfl
  · rfl

theorem updateItemIntegration_id_hash (dt : ℚ) (ti : MSTrafficItem) :
    (ti.updateItemIntegration dt).id_hash = ti.id_hash := by
  unfold updateItemIntegration
  simp only
  split_ifs <;> rfl

end MSTrafficItem

theorem update_id_hash (items : Nat → MSTrafficItem) (a : Nat) (x : MSTrafficItem)
    (hx : x.id_hash = (items a).id_hash) (b : Nat) :
    (Function.update items a x b).id_hash = (items b).id_hash := by
  by_cases h : b = a
  · subst h; simp [hx]
  · rw [Function.update_noteq h]

namespace MSCFModel_TCI

theorem items_id_hash_calculateLatentDemand (s : MSCFModel_TCI) (ti b : Nat) :
    ((s.calculateLatentDemand ti).items b).id_hash = (s.items b).id_hash :=
  update_id_hash s.items ti _ (MSTrafficItem.calculateLatentDemand_id_hash _) b

theorem items_id_hash_updateItemIntegration (s : MSCFModel_TCI) (ti b : Nat) :
    ((s.updateItemIntegration ti).items b).id_hash = (s.items b).id_hash :=
  update_id_hash s.items ti _ (MSTrafficItem.updateItemIntegration_id_hash _ _) b

/-- An item whose hash is in the new-item table is not processed again. -/
theorem registerTrafficItem_of_seen (s : MSCFModel_TCI) (ti p : Nat)
    (h : mapFind s.myNewTrafficItems (s.items ti).id_hash = some p) :
    s.registerTrafficItem ti = s := by
  simp only [registerTrafficItem, h]

/-- The state after the item's first processing in a step; `ti1` is the
stored object if the hash is known and the caller's object otherwise. -/
theorem registerTrafficItem_of_unseen (s : MSCFModel_TCI) (ti : Nat)
    (h : mapFind s.myNewTrafficItems (s.items ti).id_hash = none) :
    ∃ ti1 s4 : _,
      ti1 = (mapFind s.myTrafficItems (s.items ti).id_hash).getD ti
      ∧ (s4 = ((s.calculateLatentDemand ti1).integrateDemand ti1).updateItemIntegration ti1
        ∨ s4 = (s.calculateLatentDemand ti1).integrateDemand ti1)
      ∧ s.registerTrafficItem ti
        = { s4 with
            myNewTrafficItems := mapAssign s4.myNewTrafficItems (s4.items ti1).id_hash ti1 } := by
  simp only [registerTrafficItem, h]
  cases hk : mapFind s.myTrafficItems (s.items ti).id_hash with
  | none =>
    simp only [calculateIntegrationDemandAndTime, Option.getD_none]
    split_ifs
    · exact ⟨ti, _, rfl, Or.inl rfl, rfl⟩
    · exact ⟨ti, _, rfl, Or.inr rfl, rfl⟩
  | some second =>
    simp only [Option.getD_some]
    split_ifs
    · exact ⟨second, _, rfl, Or.inl rfl, rfl⟩
    · exact ⟨second, _, rfl, Or.inr rfl, rfl⟩

/-- The identity hash of an object is never written. -/
theorem registerTrafficItem_id_hash (s : MSCFModel_TCI) (ti b : Nat) :
    ((s.registerTrafficItem ti).items b).id_hash = (s.items b).id_hash := by
  cases h : mapFind s.myNewTrafficItems (s.items ti).id_hash with
  | some p => rw [registerTrafficItem_of_seen s ti p h]
  | none =>
    obtain ⟨ti1, s4, _, h4 | h4, e⟩ := registerTrafficItem_of_unseen s ti h
    · rw [e, h4]
      show ((((s.calculateLatentDemand ti1).integrateDemand ti1).updateItemIntegration
        ti1).items b).id_hash = _
      rw [items_id_hash_updateItemIntegration]
      exact items_id_hash_calculateLatentDemand s ti1 b
    · rw [e, h4]
      exact items_id_hash_calculateLatentDemand s ti1 b

/-- After `registerTrafficItem` the hash of the item is in the new-item
table. -/
theorem registerTrafficItem_seen_after (s : MSCFModel_TCI) (ti : Nat)
    (hk : s.knownItemsKeyed) :
    ∃ p, mapFind (s.registerTrafficItem ti).myNewTrafficItems (s.items ti).id_hash
      = some p := by
  cases h : mapFind s.myNewTrafficItems (s.items ti).id_hash with
  | some p => exact ⟨p, by rw [registerTrafficItem_of_seen s ti p h]; exact h⟩
  | none =>
    obtain ⟨ti1, s4, h1, h4, e⟩ := registerTrafficItem_of_unseen s ti h
    have hs4 : (s4.items ti1).id_hash = (s.items ti1).id_hash := by
      rcases h4 with h4 | h4
      · rw [h4, items_id_hash_updateItemIntegration]
        exact items_id_hash_calculateLatentDemand s ti1 ti1
      · rw [h4]
        exact items_id_hash_calculateLatentDemand s ti1 ti1
    have hkey : (s.items ti1).id_hash = (s.items ti).id_hash := by
      cases hf : mapFind s.myTrafficItems (s.items ti).id_hash with
      | none => rw [h1, hf]; rfl
      | some second =>
        rw [h1, hf]
        exact hk _ (mem_of_mapFind _ _ _ hf)
    refine ⟨ti1, ?_⟩
    rw [e]
    show mapFind (mapAssign s4.myNewTrafficItems (s4.items ti1).id_hash ti1) _ = _
    rw [hs4, hkey]
    exact mapFind_mapAssign_self _ _ _

/-- What `registerTrafficItem` does to the object it processes (the stored
object `ti1` of a known hash, the caller's object otherwise): the latent demand
is recomputed and the integration clock is advanced by lines 256-258, which is
`MSTrafficItem.advanceIntegration` at the step duration of the model. -/
theorem registerTrafficItem_processed_item (s : MSCFModel_TCI) (ti : Nat)
    (h : mapFind s.myNewTrafficItems (s.items ti).id_hash = none) :
    (s.registerTrafficItem ti).items
        ((mapFind s.myTrafficItems (s.items ti).id_hash).getD ti)
      = MSTrafficItem.advanceIntegration s.myStepDuration
          (MSTrafficItem.calculateLatentDemand
            (s.items ((mapFind s.myTrafficItems (s.items ti).id_hash).getD ti))) := by
  simp only [registerTrafficItem, h]
  cases mapFind s.myTrafficItems (s.items ti).id_hash with
  | none =>
    simp only [calculateIntegrationDemandAndTime, Option.getD_none,
      MSTrafficItem.advanceIntegration, calculateLatentDemand, integrateDemand,
      updateItemIntegration, Function.update_same]
    split_ifs <;> simp
  | some second =>
    simp only [Option.getD_some, MSTrafficItem.advanceIntegration, calculateLatentDemand,
      integrateDemand, updateItemIntegration, Function.update_same]
    split_ifs <;> simp

/-- The known-items table is never written. -/
theorem registerTrafficItem_known_table (s : MSCFModel_TCI) (ti : Nat) :
    (s.registerTrafficItem ti).myTrafficItems = s.myTrafficItems := by
  cases h : mapFind s.myNewTrafficItems (s.items ti).id_hash with
  | some p => rw [registerTrafficItem_of_seen s ti p h]
  | none =>
    obtain ⟨ti1, s4, _, h4 | h4, e⟩ := registerTrafficItem_of_unseen s ti h
    · rw [e, h4]; rfl
    · rw [e, h4]; rfl

/-- The constructed model satisfies the invariant of the known-items table. -/
theorem knownItemsKeyed_construct (TS SIMTIME : ℚ) (items : Nat → MSTrafficItem) :
    (construct TS SIMTIME items).knownItemsKeyed := by
  simp [knownItemsKeyed, construct]

/-- The invariant of the known-items table is kept by `registerTrafficItem`. -/
theorem knownItemsKeyed_registerTrafficItem (s : MSCFModel_TCI) (ti : Nat)
    (hk : s.knownItemsKeyed) : (s.registerTrafficItem ti).knownItemsKeyed := by
  intro entry hentry
  rw [registerTrafficItem_known_table] at hentry
  rw [registerTrafficItem_id_hash]
  exact hk entry hentry

/-- The invariant of the known-items table is needed for idempotence: in the
unreachable state `misfiledModel` the item is stored under the hash 9 of the
known object, the hash 7 stays unseen, and a second registration adds the
demand of the item to `maxTaskDemand` once more. -/
theorem registerTrafficItem_misfiled :
    ¬ misfiledModel.knownItemsKeyed
    ∧ (misfiledModel.registerTrafficItem 0).myMaxTaskDemand = 373 / 15
    ∧ ((misfiledModel.registerTrafficItem 0).registerTrafficItem 0).myMaxTaskDemand
        = 446 / 15 := by
  refine ⟨?_, ?_, ?_⟩
  · simp [knownItemsKeyed, misfiledModel, misfiledMemory, junctionItem]
  · norm_num [registerTrafficItem, misfiledModel, misfiledMemory, freshModel, construct, mapFind,
      mapAssign, junctionItem, calculateLatentDemand, integrateDemand,
      updateItemIntegration, MSTrafficItem.calculateLatentDemand,
      MSTrafficItem.updateItemIntegration, TCIDefaults.myMaxTaskDemand, Function.update]
  · norm_num [registerTrafficItem, misfiledModel, misfiledMemory, freshModel, construct, mapFind,
      mapAssign, junctionItem, calculateLatentDemand, integrateDemand,
      updateItemIntegration, MSTrafficItem.calculateLatentDemand,
      MSTrafficItem.updateItemIntegration, TCIDefaults.myMaxTaskDemand, Function.update]

/-- C5: `registerTrafficItem` is idempotent on an identity hash.  In every
model state whose known-items table files each item under its own hash (the
table is empty in all states the model reaches), and for all items `ti`, `ti1`
with the same `id_hash`, registering `ti1` after `ti` returns the state reached
after registering `ti`: `maxTaskDemand`, both item tables and every field of
every item object are as the first call left them. -/
theorem registerTrafficItem_idempotent (s : MSCFModel_TCI) (ti ti1 : Nat)
    (hk : s.knownItemsKeyed) (hhash : (s.items ti).id_hash = (s.items ti1).id_hash) :
    (s.registerTrafficItem ti).registerTrafficItem ti1 = s.registerTrafficItem ti := by
  obtain ⟨p, hp⟩ := registerTrafficItem_seen_after s ti hk
  refine registerTrafficItem_of_seen _ ti1 p ?_
  rw [registerTrafficItem_id_hash, ← hhash]
  exact hp

theorem registerTrafficItem_idempotent_witness :
    (freshModel.knownItemsKeyed
      ∧ (freshModel.items 0).id_hash = (freshModel.items 1).id_hash)
    ∧ (freshModel.registerTrafficItem 0).registerTrafficItem 1
      = freshModel.registerTrafficItem 0 :=
  ⟨⟨knownItemsKeyed_construct 1 0 junctionMemory, rfl⟩,
    registerTrafficItem_idempotent freshModel 0 1
      (knownItemsKeyed_construct 1 0 junctionMemory) rfl⟩

end MSCFModel_TCI

/-! ## `MAX2` -/

theorem MAX2_eq_max (a b : ℚ) : MAX2 a b = max a b := by
  unfold MAX2
  split_ifs with h
  · exact (max_eq_left (le_of_lt h)).symm
  · exact (max_eq_right (not_lt.mp h)).symm

namespace MSCFModel_TCI

/-! ## Continuity of the difficulty function -/

theorem difficultyFunction_eq_min (s : MSCFModel_TCI) :
    s.difficultyFunction
      = fun q : ℚ =>
          min s.myMaxDifficulty
            (if q ≤ 1 then s.mySubCriticalDifficultyCoefficient * q
              else s.mySubCriticalDifficultyCoefficient
                + (q - 1) * s.mySuperCriticalDifficultyCoefficient) := by
  funext q
  simp only [difficultyFunction, MIN2_eq_min]

theorem difficultyFunction_one (s : MSCFModel_TCI) :
    s.difficultyFunction 1 = min s.myMaxDifficulty s.mySubCriticalDifficultyCoefficient := by
  rw [difficultyFunction_sub s 1 (le_refl 1), mul_one]

theorem continuous_difficultyFunction (s : MSCFModel_TCI) : Continuous s.difficultyFunction := by
  rw [difficultyFunction_eq_min]
  refine continuous_const.min ?_
  refine Continuous.if_le (by fun_prop) (by fun_prop) continuous_id continuous_const ?_
  intro q hq
  simp only [id] at hq
  rw [hq]
  ring

/-- The distance of the difficulty at `q` from the difficulty at 1 is at most
the larger slope times the distance of `q` from 1. -/
theorem difficultyFunction_near_one (s : MSCFModel_TCI) (q : ℚ) :
    |s.difficultyFunction q - s.difficultyFunction 1|
      ≤ max |s.mySubCriticalDifficultyCoefficient| |s.mySuperCriticalDifficultyCoefficient|
        * |q - 1| := by
  rw [difficultyFunction_one]
  by_cases hq : q ≤ 1
  · rw [difficultyFunction_sub s q hq]
    refine le_trans (abs_min_sub_min_le_max _ _ _ _) ?_
    rw [sub_self, abs_zero, max_eq_right (abs_nonneg _)]
    have e : s.mySubCriticalDifficultyCoefficient * q - s.mySubCriticalDifficultyCoefficient
        = s.mySubCriticalDifficultyCoefficient * (q - 1) := by ring
    rw [e, abs_mul]
    exact mul_le_mul_of_nonneg_right (le_max_left _ _) (abs_nonneg _)
  · rw [difficultyFunction_super s q (not_le.mp hq)]
    refine le_trans (abs_min_sub_min_le_max _ _ _ _) ?_
    rw [sub_self, abs_zero, max_eq_right (abs_nonneg _)]
    have e : s.mySubCriticalDifficultyCoefficient
          + (q - 1) * s.mySuperCriticalDifficultyCoefficient
          - s.mySubCriticalDifficultyCoefficient
        = s.mySuperCriticalDifficultyCoefficient * (q - 1) := by ring
    rw [e, abs_mul]
    exact mul_le_mul_of_nonneg_right (le_max_right _ _) (abs_nonneg _)

/-- C11: for every choice of the coefficients, the sub-critical expression
`subCriticalCoeff * q` and the super-critical expression
`subCriticalCoeff + (q - 1) * superCriticalCoeff` both equal `subCriticalCoeff`
at `q = 1`, `difficultyFunction 1 = min maxDifficulty subCriticalCoeff`, and
`difficultyFunction` is continuous everywhere (on the rationals that stand for
the doubles): its limits from the left and from the right at 1 are
`difficultyFunction 1`, and `|difficultyFunction q - difficultyFunction 1|` is
at most `max |subCriticalCoeff| |superCriticalCoeff| * |q - 1|`. -/
theorem difficultyFunction_continuous_at_kink (s : MSCFModel_TCI) :
    s.mySubCriticalDifficultyCoefficient * 1 = s.mySubCriticalDifficultyCoefficient
    ∧ s.mySubCriticalDifficultyCoefficient
        + ((1 : ℚ) - 1) * s.mySuperCriticalDifficultyCoefficient
      = s.mySubCriticalDifficultyCoefficient
    ∧ s.difficultyFunction 1 = min s.myMaxDifficulty s.mySubCriticalDifficultyCoefficient
    ∧ Continuous s.difficultyFunction
    ∧ Filter.Tendsto s.difficultyFunction (nhdsWithin 1 (Set.Iio 1))
        (nhds (s.difficultyFunction 1))
    ∧ Filter.Tendsto s.difficultyFunction (nhdsWithin 1 (Set.Ioi 1))
        (nhds (s.difficultyFunction 1))
    ∧ ∀ q : ℚ, |s.difficultyFunction q - s.difficultyFunction 1|
        ≤ max |s.mySubCriticalDifficultyCoefficient| |s.mySuperCriticalDifficultyCoefficient|
          * |q - 1| := by
  refine ⟨mul_one _, by ring, difficultyFunction_one s, continuous_difficultyFunction s, ?_, ?_,
    difficultyFunction_near_one s⟩
  · exact ((continuous_difficultyFunction s).tendsto 1).mono_left nhdsWithin_le_nhds
  · exact ((continuous_difficultyFunction s).tendsto 1).mono_left nhdsWithin_le_nhds

/-! ## Faults of `calculateDrivingDifficulty` -/

theorem calculateDrivingDifficulty_eq_run (s : MSCFModel_TCI) (capability demand : ℚ) :
    s.calculateDrivingDifficulty capability demand
      = (s.calculateDrivingDifficultyRun capability demand).toOption := by
  unfold calculateDrivingDifficulty calculateDrivingDifficultyRun
  split_ifs <;> rfl

/-- C12: with assertions enabled, `calculateDrivingDifficulty` faults if and
only if `capability <= 0` or `demand < 0`; when it faults the object is left in
the state it was in (no field is written), and when it does not fault the
object is left in the state that differs from the old one in the current
driving difficulty only, which is `difficultyFunction (demand / capability)`. -/
theorem calculateDrivingDifficulty_fault_iff (s : MSCFModel_TCI) (capability demand : ℚ) :
    (s.calculateDrivingDifficulty capability demand = none ↔ capability ≤ 0 ∨ demand < 0)
    ∧ (capability ≤ 0 ∨ demand < 0 →
        s.calculateDrivingDifficultyRun capability demand = Except.error s)
    ∧ (¬ (capability ≤ 0 ∨ demand < 0) →
        s.calculateDrivingDifficultyRun capability demand
          = Except.ok { s with
              myCurrentDrivingDifficulty := s.difficultyFunction (demand / capability) }
        ∧ s.calculateDrivingDifficulty capability demand
          = some { s with
              myCurrentDrivingDifficulty := s.difficultyFunction (demand / capability) }) := by
  refine ⟨?_, ?_, ?_⟩
  · unfold calculateDrivingDifficulty
    constructor
    · intro h
      by_contra hn
      push_neg at hn
      simp [hn.1, hn.2] at h
    · rintro (h | h)
      · simp [not_lt.mpr h]
      · simp [not_le.mpr h]
  · rintro (h | h)
    · simp [calculateDrivingDifficultyRun, not_lt.mpr h]
    · simp [calculateDrivingDifficultyRun, not_le.mpr h]
  · intro hn
    push_neg at hn
    refine ⟨?_, calculateDrivingDifficulty_of_valid s capability demand hn.1 hn.2⟩
    simp [calculateDrivingDifficultyRun, hn.1, hn.2]

theorem calculateDrivingDifficulty_fault_iff_witness :
    ((0 : ℚ) ≤ 0 ∨ (5 : ℚ) < 0)
    ∧ freshModel.calculateDrivingDifficultyRun 0 5 = Except.error freshModel
    ∧ ¬ ((10 : ℚ) ≤ 0 ∨ (20 : ℚ) < 0)
    ∧ freshModel.calculateDrivingDifficulty 10 20
      = some { freshModel with
          myCurrentDrivingDifficulty := freshModel.difficultyFunction (20 / 10) } :=
  ⟨Or.inl (le_refl 0),
    (calculateDrivingDifficulty_fault_iff freshModel 0 5).2.1 (Or.inl (le_refl 0)),
    by norm_num,
    ((calculateDrivingDifficulty_fault_iff freshModel 10 20).2.2 (by norm_num)).2⟩

/-! ## The speed decisions -/

/-- C14: `followSpeed` returns `max (min vsafe vmax) vmin` for
`vsafe = maximumSafeFollowSpeed gap speed predSpeed predMaxDecel`,
`vmin = minNextSpeed speed` and `vmax = maxNextSpeed speed veh`, whatever these
functions of the base class are; the result is at least `vmin`, and when
`vmin <= vmax` it is at most `vmax` and equals `vsafe` if `vsafe` lies in
`[vmin, vmax]`. -/
theorem followSpeed_clamps (base : MSCFModel) (veh : MSVehicle)
    (speed gap predSpeed predMaxDecel : ℚ) :
    followSpeed base veh speed gap predSpeed predMaxDecel
      = max (min (base.maximumSafeFollowSpeed gap speed predSpeed predMaxDecel)
          (base.maxNextSpeed speed veh)) (base.minNextSpeed speed)
    ∧ base.minNextSpeed speed ≤ followSpeed base veh speed gap predSpeed predMaxDecel
    ∧ (base.minNextSpeed speed ≤ base.maxNextSpeed speed veh →
        followSpeed base veh speed gap predSpeed predMaxDecel ≤ base.maxNextSpeed speed veh
        ∧ (base.minNextSpeed speed ≤ base.maximumSafeFollowSpeed gap speed predSpeed predMaxDecel →
            base.maximumSafeFollowSpeed gap speed predSpeed predMaxDecel
              ≤ base.maxNextSpeed speed veh →
            followSpeed base veh speed gap predSpeed predMaxDecel
              = base.maximumSafeFollowSpeed gap speed predSpeed predMaxDecel)) := by
  have e : followSpeed base veh speed gap predSpeed predMaxDecel
      = max (min (base.maximumSafeFollowSpeed gap speed predSpeed predMaxDecel)
          (base.maxNextSpeed speed veh)) (base.minNextSpeed speed) := by
    simp only [followSpeed, MAX2_eq_max, MIN2_eq_min]
  rw [e]
  refine ⟨rfl, le_max_right _ _, fun h => ⟨max_le (min_le_right _ _) h, fun h1 h2 => ?_⟩⟩
  rw [min_eq_left h2, max_eq_left h1]

theorem followSpeed_clamps_witness :
    sampleBase.minNextSpeed 10 ≤ sampleBase.maxNextSpeed 10 ⟨1, 1⟩
    ∧ followSpeed sampleBase ⟨1, 1⟩ 10 30 12 4 ≤ sampleBase.maxNextSpeed 10 ⟨1, 1⟩ :=
  have h : sampleBase.minNextSpeed 10 ≤ sampleBase.maxNextSpeed 10 ⟨1, 1⟩ := by
    norm_num [sampleBase]
  ⟨h, ((followSpeed_clamps sampleBase ⟨1, 1⟩ 10 30 12 4).2.2 h).1⟩

/-! ## What the action step length and the capability are set to -/

/-- C17: `updateActionStepLength` leaves the state that differs from the old
one in the action step length only, which for
`v = actionStepLengthCoefficient * currentDrivingDifficulty` is
`minActionStepLength` if `v <= minActionStepLength` and
`min (v - minActionStepLength) maxActionStepLength` otherwise. -/
theorem updateActionStepLength_eq (s : MSCFModel_TCI) :
    s.updateActionStepLength
      = { s with
          myActionStepLength :=
            if s.myActionStepLengthCoefficient * s.myCurrentDrivingDifficulty
                ≤ s.myMinActionStepLength then
              s.myMinActionStepLength
            else
              min (s.myActionStepLengthCoefficient * s.myCurrentDrivingDifficulty
                - s.myMinActionStepLength) s.myMaxActionStepLength } := by
  unfold updateActionStepLength
  split_ifs with h
  · rfl
  · rw [MIN2_eq_min]

/-- C18: `adaptTaskCapability` changes the capability only, to
`c + k * dt * (demand - h * c)` for the capability `c`, `k = capabilityTimeScale`,
`dt = stepDuration` and `h = homeostasisDifficulty`; for `h > 0` and
`0 <= k * dt * h <= 1` the distance of the new capability from `demand / h` is
`(1 - k * dt * h)` times the old distance, the new capability lies between `c`
and `demand / h` inclusive, and it is `c` when `c = demand / h`. -/
theorem adaptTaskCapability_relaxes (s : MSCFModel_TCI)
    (hh : 0 < s.myHomeostasisDifficulty)
    (h0 : 0 ≤ s.myCapabilityTimeScale * s.myStepDuration * s.myHomeostasisDifficulty)
    (h1 : s.myCapabilityTimeScale * s.myStepDuration * s.myHomeostasisDifficulty ≤ 1) :
    s.adaptTaskCapability
      = { s with
          myTaskCapability := s.myTaskCapability
            + s.myCapabilityTimeScale * s.myStepDuration
              * (s.myTaskDemand - s.myHomeostasisDifficulty * s.myTaskCapability) }
    ∧ |s.adaptTaskCapability.myTaskCapability - s.myTaskDemand / s.myHomeostasisDifficulty|
        = (1 - s.myCapabilityTimeScale * s.myStepDuration * s.myHomeostasisDifficulty)
          * |s.myTaskCapability - s.myTaskDemand / s.myHomeostasisDifficulty|
    ∧ min s.myTaskCapability (s.myTaskDemand / s.myHomeostasisDifficulty)
        ≤ s.adaptTaskCapability.myTaskCapability
    ∧ s.adaptTaskCapability.myTaskCapability
        ≤ max s.myTaskCapability (s.myTaskDemand / s.myHomeostasisDifficulty)
    ∧ (s.myTaskCapability = s.myTaskDemand / s.myHomeostasisDifficulty →
        s.adaptTaskCapability.myTaskCapability = s.myTaskCapability) := by
  have hne : s.myHomeostasisDifficulty ≠ 0 := ne_of_gt hh
  have e : s.adaptTaskCapability.myTaskCapability
        - s.myTaskDemand / s.myHomeostasisDifficulty
      = (1 - s.myCapabilityTimeScale * s.myStepDuration * s.myHomeostasisDifficulty)
        * (s.myTaskCapability - s.myTaskDemand / s.myHomeostasisDifficulty) := by
    simp only [adaptTaskCapability]
    field_simp
    ring
  have hθ : 0 ≤ 1 - s.myCapabilityTimeScale * s.myStepDuration * s.myHomeostasisDifficulty := by
    linarith
  refine ⟨rfl, ?_, ?_, ?_, ?_⟩
  · rw [e, abs_mul, abs_of_nonneg hθ]
  · rcases le_total s.myTaskCapability (s.myTaskDemand / s.myHomeostasisDifficulty) with hc | hc
    · rw [min_eq_left hc]
      nlinarith [mul_nonneg h0 (sub_nonneg.mpr hc)]
    · rw [min_eq_right hc]
      nlinarith [mul_nonneg hθ (sub_nonneg.mpr hc)]
  · rcases le_total s.myTaskCapability (s.myTaskDemand / s.myHomeostasisDifficulty) with hc | hc
    · rw [max_eq_right hc]
      nlinarith [mul_nonneg hθ (sub_nonneg.mpr hc)]
    · rw [max_eq_left hc]
      nlinarith [mul_nonneg h0 (sub_nonneg.mpr hc)]
  · intro hc
    have : s.adaptTaskCapability.myTaskCapability
        - s.myTaskDemand / s.myHomeostasisDifficulty = 0 := by
      rw [e, hc, sub_self, mul_zero]
    linarith

theorem adaptTaskCapability_relaxes_witness :
    (0 < freshModel.myHomeostasisDifficulty
      ∧ 0 ≤ freshModel.myCapabilityTimeScale * freshModel.myStepDuration
          * freshModel.myHomeostasisDifficulty
      ∧ freshModel.myCapabilityTimeScale * freshModel.myStepDuration
          * freshModel.myHomeostasisDifficulty ≤ 1)
    ∧ min freshModel.myTaskCapability
          (freshModel.myTaskDemand / freshModel.myHomeostasisDifficulty)
        ≤ freshModel.adaptTaskCapability.myTaskCapability :=
  have hh : 0 < freshModel.myHomeostasisDifficulty := by
    norm_num [freshModel, construct, TCIDefaults.myHomeostasisDifficulty]
  have h0 : 0 ≤ freshModel.myCapabilityTimeScale * freshModel.myStepDuration
      * freshModel.myHomeostasisDifficulty := by
    norm_num [freshModel, construct, TCIDefaults.myHomeostasisDifficulty,
      TCIDefaults.myCapabilityTimeScale]
  have h1 : freshModel.myCapabilityTimeScale * freshModel.myStepDuration
      * freshModel.myHomeostasisDifficulty ≤ 1 := by
    norm_num [freshModel, construct, TCIDefaults.myHomeostasisDifficulty,
      TCIDefaults.myCapabilityTimeScale]
  ⟨⟨hh, h0, h1⟩, (adaptTaskCapability_relaxes freshModel hh h0 h1).2.2.1⟩

end MSCFModel_TCI

namespace OUProcess

/-! ## The noiseless Ornstein-Uhlenbeck step -/

/-- C13: with noise intensity 0, for every state `x`, every `dt >= 0`, every
time scale `> 0` and every random draw, `step dt` sets the state to
`exp (-dt / timeScale) * x` and changes nothing else, so the result is the same
for every draw; `step 0` is the identity for an `exp` with `exp 0 = 1`, and
`|new state| <= |x|` for an `exp` with values in `[0, 1]` on the non-positive
numbers (both are properties of the exponential function). -/
theorem step_noiseless (m : CMath) (p : OUProcess) (dt randNorm : ℚ)
    (hnoise : p.myNoiseIntensity = 0) (hdt : 0 ≤ dt) (hts : 0 < p.myTimeScale) :
    p.step m dt randNorm = { p with myState := m.exp (-dt / p.myTimeScale) * p.myState }
    ∧ (∀ otherDraw : ℚ, p.step m dt otherDraw = p.step m dt randNorm)
    ∧ (m.exp 0 = 1 → p.step m 0 randNorm = p)
    ∧ ((∀ y : ℚ, y ≤ 0 → 0 ≤ m.exp y ∧ m.exp y ≤ 1) →
        |(p.step m dt randNorm).myState| ≤ |p.myState|) := by
  have e : ∀ (t r : ℚ), p.step m t r
      = { p with myState := m.exp (-t / p.myTimeScale) * p.myState } := by
    intro t r
    simp [step, hnoise]
  refine ⟨e dt randNorm, fun r => by rw [e dt r, e dt randNorm], fun h0 => ?_, fun hexp => ?_⟩
  · rw [e 0 randNorm, neg_zero, zero_div, h0, one_mul]
  · rw [e dt randNorm]
    have hy : -dt / p.myTimeScale ≤ 0 :=
      div_nonpos_of_nonpos_of_nonneg (neg_nonpos.mpr hdt) (le_of_lt hts)
    obtain ⟨a, b⟩ := hexp _ hy
    show |m.exp (-dt / p.myTimeScale) * p.myState| ≤ |p.myState|
    rw [abs_mul, abs_of_nonneg a]
    exact mul_le_of_le_one_left (abs_nonneg _) b

theorem step_noiseless_witness :
    ((⟨5, 2, 0⟩ : OUProcess).myNoiseIntensity = 0 ∧ (0 : ℚ) ≤ 4
      ∧ 0 < (⟨5, 2, 0⟩ : OUProcess).myTimeScale)
    ∧ rationalCMath.exp 0 = 1
    ∧ (⟨5, 2, 0⟩ : OUProcess).step rationalCMath 0 7 = ⟨5, 2, 0⟩
    ∧ ((⟨5, 2, 0⟩ : OUProcess).step rationalCMath 4 7).myState = 5 / 3 :=
  have h0 : rationalCMath.exp 0 = 1 := by norm_num [rationalCMath]
  ⟨⟨rfl, by norm_num, by norm_num⟩, h0,
    (step_noiseless rationalCMath ⟨5, 2, 0⟩ 0 7 rfl (le_refl 0) (by norm_num)).2.2.1 h0,
    by
      rw [(step_noiseless rationalCMath ⟨5, 2, 0⟩ 4 7 rfl (by norm_num) (by norm_num)).1]
      norm_num [rationalCMath]⟩

end OUProcess

/-! ## What `registerTrafficItem` adds to the demand ceiling -/

namespace MSTrafficItem

theorem calculateLatentDemand_integrationDemand (ti : MSTrafficItem) :
    ti.calculateLatentDemand.integrationDemand = ti.integrationDemand := by
  unfold calculateLatentDemand
  split
  · rfl
  · rfl
  · rfl
  · rfl
  · simp only; split_ifs <;> rfl
  · rfl

theorem advanceIntegration_latentDemand (dt : ℚ) (ti : MSTrafficItem) :
    (ti.advanceIntegration dt).latentDemand = ti.latentDemand := by
  unfold advanceIntegration updateItemIntegration
  simp only
  split_ifs <;> rfl

/-- Lines 340-343: without an ego edge the vehicle branch returns before it
reads or writes anything else, and the item is as it was. -/
theorem calculateLatentDemand_vehicle_no_edge (ti : MSTrafficItem) (foeEdge : Option Nat)
    (egoOppositeEdge : Option Nat) (distanceSquared : ℚ)
    (h : ti.type = .TRAFFIC_ITEM_VEHICLE none foeEdge egoOppositeEdge distanceSquared) :
    ti.calculateLatentDemand = ti := by
  simp [calculateLatentDemand, h]

end MSTrafficItem

namespace MSCFModel_TCI

theorem registerTrafficItem_maxTaskDemand (s : MSCFModel_TCI) (ti : Nat)
    (h : mapFind s.myNewTrafficItems (s.items ti).id_hash = none) :
    (s.registerTrafficItem ti).myMaxTaskDemand
      = s.myMaxTaskDemand
        + (s.items ((mapFind s.myTrafficItems (s.items ti).id_hash).getD ti)).integrationDemand
        + (MSTrafficItem.calculateLatentDemand
            (s.items
              ((mapFind s.myTrafficItems (s.items ti).id_hash).getD ti))).latentDemand := by
  simp only [registerTrafficItem, h]
  cases mapFind s.myTrafficItems (s.items ti).id_hash with
  | none =>
    simp only [calculateIntegrationDemandAndTime, Option.getD_none, calculateLatentDemand,
      integrateDemand, updateItemIntegration, Function.update_same,
      MSTrafficItem.calculateLatentDemand_integrationDemand]
    split_ifs <;> rfl
  | some second =>
    simp only [Option.getD_some, calculateLatentDemand, integrateDemand, updateItemIntegration,
      Function.update_same, MSTrafficItem.calculateLatentDemand_integrationDemand]
    split_ifs <;> rfl

/-- The fields that `registerTrafficItem` can change are `myMaxTaskDemand`,
the new-item table and the item objects. -/
theorem registerTrafficItem_frame (s : MSCFModel_TCI) (ti : Nat) :
    s.registerTrafficItem ti
      = { s with
          myMaxTaskDemand := (s.registerTrafficItem ti).myMaxTaskDemand,
          myNewTrafficItems := (s.registerTrafficItem ti).myNewTrafficItems,
          items := (s.registerTrafficItem ti).items } := by
  cases h : mapFind s.myNewTrafficItems (s.items ti).id_hash with
  | some p => rw [registerTrafficItem_of_seen s ti p h]
  | none =>
    obtain ⟨ti1, s4, _, h4 | h4, e⟩ := registerTrafficItem_of_unseen s ti h
    · rw [e, h4]; rfl
    · rw [e, h4]; rfl

/-- C15: for every model state and every item whose hash is not in the
new-item table, `registerTrafficItem` increases `maxTaskDemand` by exactly the
integration demand that the processed object has on entry (before the
integration clock is advanced) plus the latent demand just computed for it,
which is the latent demand the object holds afterwards; `taskDemand`,
`taskCapability` and the current driving difficulty are unchanged.  The
processed object is the one stored for the hash in the known-items table, and
the object passed in if the hash is not known. -/
theorem registerTrafficItem_adds_demand (s : MSCFModel_TCI) (ti : Nat)
    (h : mapFind s.myNewTrafficItems (s.items ti).id_hash = none) :
    (s.registerTrafficItem ti).myMaxTaskDemand
      = s.myMaxTaskDemand
        + (s.items ((mapFind s.myTrafficItems (s.items ti).id_hash).getD ti)).integrationDemand
        + ((s.registerTrafficItem ti).items
            ((mapFind s.myTrafficItems (s.items ti).id_hash).getD ti)).latentDemand
    ∧ ((s.registerTrafficItem ti).items
          ((mapFind s.myTrafficItems (s.items ti).id_hash).getD ti)).latentDemand
        = (MSTrafficItem.calculateLatentDemand
            (s.items ((mapFind s.myTrafficItems (s.items ti).id_hash).getD ti))).latentDemand
    ∧ (mapFind s.myTrafficItems (s.items ti).id_hash = none →
        (mapFind s.myTrafficItems (s.items ti).id_hash).getD ti = ti)
    ∧ (s.registerTrafficItem ti).myTaskDemand = s.myTaskDemand
    ∧ (s.registerTrafficItem ti).myTaskCapability = s.myTaskCapability
    ∧ (s.registerTrafficItem ti).myCurrentDrivingDifficulty = s.myCurrentDrivingDifficulty := by
  have hl : ((s.registerTrafficItem ti).items
        ((mapFind s.myTrafficItems (s.items ti).id_hash).getD ti)).latentDemand
      = (MSTrafficItem.calculateLatentDemand
          (s.items ((mapFind s.myTrafficItems (s.items ti).id_hash).getD ti))).latentDemand := by
    rw [registerTrafficItem_processed_item s ti h,
      MSTrafficItem.advanceIntegration_latentDemand]
  refine ⟨?_, hl, fun hk => by rw [hk]; rfl, ?_, ?_, ?_⟩
  · rw [hl]
    exact registerTrafficItem_maxTaskDemand s ti h
  · rw [registerTrafficItem_frame s ti]
  · rw [registerTrafficItem_frame s ti]
  · rw [registerTrafficItem_frame s ti]

theorem registerTrafficItem_adds_demand_witness :
    mapFind freshModel.myNewTrafficItems (freshModel.items 0).id_hash = none
    ∧ (freshModel.registerTrafficItem 0).myMaxTaskDemand
      = freshModel.myMaxTaskDemand
        + (freshModel.items
            ((mapFind freshModel.myTrafficItems
              (freshModel.items 0).id_hash).getD 0)).integrationDemand
        + ((freshModel.registerTrafficItem 0).items
            ((mapFind freshModel.myTrafficItems
              (freshModel.items 0).id_hash).getD 0)).latentDemand :=
  ⟨rfl, (registerTrafficItem_adds_demand freshModel 0 rfl).1⟩

/-- C16, as stated, fails: the vehicle item at address 1 of `vehicleModel`
has no ego edge and its hash is in neither table; it carries the integration
demand 3 and the latent demand 2, and its registration takes `maxTaskDemand`
from 20 to 25. -/
theorem registerTrafficItem_vehicle_no_edge_adds :
    (vehicleModel.items 1).type = .TRAFFIC_ITEM_VEHICLE none (some 4) none 100
    ∧ mapFind vehicleModel.myNewTrafficItems (vehicleModel.items 1).id_hash = none
    ∧ mapFind vehicleModel.myTrafficItems (vehicleModel.items 1).id_hash = none
    ∧ vehicleModel.myMaxTaskDemand = 20
    ∧ (vehicleModel.registerTrafficItem 1).myMaxTaskDemand = 25 := by
  refine ⟨rfl, rfl, rfl, rfl, ?_⟩
  rw [registerTrafficItem_maxTaskDemand vehicleModel 1 rfl]
  norm_num [vehicleModel, vehicleMemory, strandedVehicleItem, construct,
    TCIDefaults.myMaxTaskDemand, mapFind, MSTrafficItem.calculateLatentDemand]

/-- C16 (amended): for a vehicle item whose ego vehicle has no edge and whose
hash is in neither table, `calculateLatentDemand` returns early and leaves the
item as it is, and `registerTrafficItem` leaves `maxTaskDemand` unchanged if
the item carries the integration demand 0 and the latent demand 0 on entry. -/
theorem registerTrafficItem_vehicle_no_edge (s : MSCFModel_TCI) (ti : Nat)
    (foeEdge egoOppositeEdge : Option Nat) (distanceSquared : ℚ)
    (htype : (s.items ti).type
      = .TRAFFIC_ITEM_VEHICLE none foeEdge egoOppositeEdge distanceSquared)
    (hnew : mapFind s.myNewTrafficItems (s.items ti).id_hash = none)
    (hknown : mapFind s.myTrafficItems (s.items ti).id_hash = none)
    (hint : (s.items ti).integrationDemand = 0) (hlat : (s.items ti).latentDemand = 0) :
    MSTrafficItem.calculateLatentDemand (s.items ti) = s.items ti
    ∧ (s.registerTrafficItem ti).myMaxTaskDemand = s.myMaxTaskDemand := by
  have hc := MSTrafficItem.calculateLatentDemand_vehicle_no_edge (s.items ti) foeEdge
    egoOppositeEdge distanceSquared htype
  refine ⟨hc, ?_⟩
  rw [registerTrafficItem_maxTaskDemand s ti hnew, hknown]
  simp only [Option.getD_none]
  rw [hc, hint, hlat, add_zero, add_zero]

theorem registerTrafficItem_vehicle_no_edge_witness :
    ((vehicleModel.items 2).type = .TRAFFIC_ITEM_VEHICLE none (some 4) none 100
      ∧ mapFind vehicleModel.myNewTrafficItems (vehicleModel.items 2).id_hash = none
      ∧ mapFind vehicleModel.myTrafficItems (vehicleModel.items 2).id_hash = none
      ∧ (vehicleModel.items 2).integrationDemand = 0
      ∧ (vehicleModel.items 2).latentDemand = 0)
    ∧ (vehicleModel.registerTrafficItem 2).myMaxTaskDemand = vehicleModel.myMaxTaskDemand :=
  ⟨⟨rfl, rfl, rfl, rfl, rfl⟩,
    (registerTrafficItem_vehicle_no_edge vehicleModel 2 (some 4) none 100 rfl rfl rfl rfl
      rfl).2⟩

end MSCFModel_TCI

/-! ## Reachable states -/

theorem mapFind_mapAssign_other (m : TrafficItemMap) (key value other : Nat)
    (h : other ≠ key) : mapFind (mapAssign m key value) other = mapFind m other := by
  induction m with
  | nil => simp [mapAssign, mapFind, h]
  | cons entry rest ih =>
    obtain ⟨k, v⟩ := entry
    simp only [mapAssign]
    split_ifs with h1 h2
    · simp [mapFind, h]
    · subst h2
      simp [mapFind, h]
    · simp only [mapFind, ih]

namespace MSCFModel_TCI

/-- The fields an operation of the model leaves alone: the task demand and
the known-items table. -/
theorem perform_frame (m : CMath) (s s1 : MSCFModel_TCI) (op : Operation)
    (h : perform m s op = some s1) :
    s1.myTaskDemand = s.myTaskDemand ∧ s1.myTrafficItems = s.myTrafficItems := by
  cases op with
  | updateStepDuration SIMTIME =>
    simp only [perform, Option.some.injEq] at h
    subst h
    exact ⟨rfl, rfl⟩
  | calculateDrivingDifficulty capability demand =>
    simp only [perform, calculateDrivingDifficulty] at h
    split_ifs at h
    simp only [Option.some.injEq] at h
    subst h
    exact ⟨rfl, rfl⟩
  | updateAccelerationError randNorm =>
    simp only [perform, Option.some.injEq] at h
    subst h
    exact ⟨rfl, rfl⟩
  | updateSpeedPerceptionError randNorm =>
    simp only [perform, Option.some.injEq] at h
    subst h
    exact ⟨rfl, rfl⟩
  | updateHeadwayPerceptionError randNorm =>
    simp only [perform, Option.some.injEq] at h
    subst h
    exact ⟨rfl, rfl⟩
  | updateActionStepLength =>
    simp only [perform, Option.some.injEq] at h
    subst h
    unfold updateActionStepLength
    split_ifs <;> exact ⟨rfl, rfl⟩
  | adaptTaskCapability =>
    simp only [perform, Option.some.injEq] at h
    subst h
    exact ⟨rfl, rfl⟩
  | registerTrafficItem ti =>
    simp only [perform, Option.some.injEq] at h
    subst h
    refine ⟨?_, registerTrafficItem_known_table s ti⟩
    rw [registerTrafficItem_frame s ti]

theorem performAll_frame (m : CMath) (ops : List Operation) :
    ∀ s s1 : MSCFModel_TCI, performAll m s ops = some s1 →
      s1.myTaskDemand = s.myTaskDemand ∧ s1.myTrafficItems = s.myTrafficItems := by
  induction ops with
  | nil =>
    intro s s1 h
    simp only [performAll, Option.some.injEq] at h
    subst h
    exact ⟨rfl, rfl⟩
  | cons op rest ih =>
    intro s s1 h
    simp only [performAll] at h
    cases hop : perform m s op with
    | none => rw [hop] at h; exact absurd h (by simp)
    | some s2 =>
      rw [hop] at h
      obtain ⟨a, b⟩ := perform_frame m s s2 op hop
      obtain ⟨c, d⟩ := ih s2 s1 h
      exact ⟨c.trans a, d.trans b⟩

/-- C19: no operation of the model writes `taskDemand`: every operation that
does not fault leaves it as it was, so does every sequence of operations, and
in every state reached from a constructed model by a sequence of
`updateStepDuration`, `calculateDrivingDifficulty`, the three error updates,
`updateActionStepLength`, `adaptTaskCapability` and `registerTrafficItem` it
has its initial value 0; `registerTrafficItem` changes no field but
`maxTaskDemand`, the new-item table and the item objects. -/
theorem taskDemand_never_written (m : CMath) :
    (∀ (s s1 : MSCFModel_TCI) (op : Operation), perform m s op = some s1 →
        s1.myTaskDemand = s.myTaskDemand)
    ∧ (∀ (TS SIMTIME : ℚ) (items : Nat → MSTrafficItem) (ops : List Operation)
        (s1 : MSCFModel_TCI), performAll m (construct TS SIMTIME items) ops = some s1 →
        s1.myTaskDemand = 0)
    ∧ (∀ (s : MSCFModel_TCI) (ti : Nat),
        s.registerTrafficItem ti
          = { s with
              myMaxTaskDemand := (s.registerTrafficItem ti).myMaxTaskDemand,
              myNewTrafficItems := (s.registerTrafficItem ti).myNewTrafficItems,
              items := (s.registerTrafficItem ti).items }) := by
  refine ⟨fun s s1 op h => (perform_frame m s s1 op h).1, ?_, registerTrafficItem_frame⟩
  intro TS SIMTIME items ops s1 h
  exact (performAll_frame m ops _ s1 h).1

theorem sampleStep_runs :
    ∃ s1, performAll rationalCMath freshModel sampleStep = some s1 := by
  simp [performAll, perform, sampleStep, calculateDrivingDifficulty]

theorem taskDemand_never_written_witness :
    ∃ s1, performAll rationalCMath (construct 1 0 junctionMemory) sampleStep = some s1
      ∧ s1.myTaskDemand = 0 :=
  Exists.elim sampleStep_runs fun s1 h =>
    ⟨s1, h, (taskDemand_never_written rationalCMath).2.1 1 0 junctionMemory sampleStep s1 h⟩

/-! ## The two item tables -/

/-- The new-item table after the first processing of a hash, in a state whose
known-items table is keyed by the hashes of its items: the processed object is
entered under the hash of the item that was passed in. -/
theorem registerTrafficItem_new_table (s : MSCFModel_TCI) (ti : Nat)
    (hk : s.knownItemsKeyed)
    (h : mapFind s.myNewTrafficItems (s.items ti).id_hash = none) :
    (s.registerTrafficItem ti).myNewTrafficItems
        = mapAssign s.myNewTrafficItems (s.items ti).id_hash
          ((mapFind s.myTrafficItems (s.items ti).id_hash).getD ti)
    ∧ (s.items ((mapFind s.myTrafficItems (s.items ti).id_hash).getD ti)).id_hash
        = (s.items ti).id_hash := by
  obtain ⟨ti1, s4, h1, h4, e⟩ := registerTrafficItem_of_unseen s ti h
  have hs4 : (s4.items ti1).id_hash = (s.items ti1).id_hash := by
    rcases h4 with h4 | h4
    · rw [h4, items_id_hash_updateItemIntegration]
      exact items_id_hash_calculateLatentDemand s ti1 ti1
    · rw [h4]
      exact items_id_hash_calculateLatentDemand s ti1 ti1
  have hnew : s4.myNewTrafficItems = s.myNewTrafficItems := by
    rcases h4 with h4 | h4 <;> rw [h4] <;> rfl
  have hkey : (s.items ti1).id_hash = (s.items ti).id_hash := by
    cases hf : mapFind s.myTrafficItems (s.items ti).id_hash with
    | none => rw [h1, hf]; rfl
    | some second =>
      rw [h1, hf]
      exact hk _ (mem_of_mapFind _ _ _ hf)
  refine ⟨?_, by rw [← h1]; exact hkey⟩
  rw [e, ← h1]
  show mapAssign s4.myNewTrafficItems (s4.items ti1).id_hash ti1 = _
  rw [hs4, hkey, hnew]

/-- The only object that `registerTrafficItem` writes to is the processed
one. -/
theorem registerTrafficItem_other_items (s : MSCFModel_TCI) (ti b : Nat)
    (hb : b ≠ (mapFind s.myTrafficItems (s.items ti).id_hash).getD ti) :
    (s.registerTrafficItem ti).items b = s.items b := by
  cases h : mapFind s.myNewTrafficItems (s.items ti).id_hash with
  | some p => rw [registerTrafficItem_of_seen s ti p h]
  | none =>
    obtain ⟨ti1, s4, h1, h4 | h4, e⟩ := registerTrafficItem_of_unseen s ti h
    · rw [e, h4]
      rw [← h1] at hb
      show Function.update (Function.update s.items ti1 _) ti1 _ b = _
      rw [Function.update_noteq hb, Function.update_noteq hb]
    · rw [e, h4]
      rw [← h1] at hb
      show Function.update s.items ti1 _ b = _
      rw [Function.update_noteq hb]

/-- C20: `registerTrafficItem` never modifies the known-items table and only
adds to the new-item table.  After `registerTrafficItem s ti` the known-items
table is that of `s`; and if the known-items table of `s` files every item
under its own hash (it is empty in every reachable state), the new-item table
contains the hash of `ti`, every hash that was in it maps to the same object
as before, and that object is unchanged if it carries the hash it is filed
under.  Consequently, in every state reached from a constructed model the
known-items table is empty, no hash is known, and an item that is processed
takes the first-sighting branch: the object processed and entered in the
new-item table is the one passed in. -/
theorem registerTrafficItem_tables (m : CMath) :
    (∀ (s : MSCFModel_TCI) (ti : Nat),
        (s.registerTrafficItem ti).myTrafficItems = s.myTrafficItems)
    ∧ (∀ (s : MSCFModel_TCI) (ti : Nat), s.knownItemsKeyed →
        (∃ p, mapFind (s.registerTrafficItem ti).myNewTrafficItems (s.items ti).id_hash
          = some p)
        ∧ ∀ key p : Nat, mapFind s.myNewTrafficItems key = some p →
            mapFind (s.registerTrafficItem ti).myNewTrafficItems key = some p
            ∧ ((s.items p).id_hash = key → (s.registerTrafficItem ti).items p = s.items p))
    ∧ (∀ (TS SIMTIME : ℚ) (items : Nat → MSTrafficItem) (ops : List Operation)
        (s1 : MSCFModel_TCI), performAll m (construct TS SIMTIME items) ops = some s1 →
        s1.myTrafficItems = []
        ∧ s1.knownItemsKeyed
        ∧ ∀ ti : Nat,
            mapFind s1.myTrafficItems (s1.items ti).id_hash = none
            ∧ (mapFind s1.myNewTrafficItems (s1.items ti).id_hash = none →
                (s1.registerTrafficItem ti).myNewTrafficItems
                  = mapAssign s1.myNewTrafficItems (s1.items ti).id_hash ti
                ∧ (s1.registerTrafficItem ti).items ti
                  = MSTrafficItem.advanceIntegration s1.myStepDuration
                      (MSTrafficItem.calculateLatentDemand (s1.items ti)))) := by
  refine ⟨registerTrafficItem_known_table, ?_, ?_⟩
  · intro s ti hk
    refine ⟨registerTrafficItem_seen_after s ti hk, ?_⟩
    intro key p hp
    cases h : mapFind s.myNewTrafficItems (s.items ti).id_hash with
    | some q =>
      rw [registerTrafficItem_of_seen s ti q h]
      exact ⟨hp, fun _ => rfl⟩
    | none =>
      obtain ⟨hnew, hkey⟩ := registerTrafficItem_new_table s ti hk h
      have hne : key ≠ (s.items ti).id_hash := by
        intro hc
        rw [hc, h] at hp
        exact absurd hp (by simp)
      refine ⟨?_, fun hpk => ?_⟩
      · rw [hnew, mapFind_mapAssign_other _ _ _ _ hne]
        exact hp
      · refine registerTrafficItem_other_items s ti p ?_
        intro hc
        rw [← hc, hpk] at hkey
        exact hne hkey
  · intro TS SIMTIME items ops s1 h
    have hempty : s1.myTrafficItems = [] := (performAll_frame m ops _ s1 h).2
    have hk : s1.knownItemsKeyed := by
      intro entry hentry
      rw [hempty] at hentry
      exact absurd hentry (List.not_mem_nil entry)
    have hnone : ∀ key : Nat, mapFind s1.myTrafficItems key = none := by
      intro key
      rw [hempty]
      rfl
    refine ⟨hempty, hk, fun ti => ⟨hnone _, fun hnew => ?_⟩⟩
    have h1 := (registerTrafficItem_new_table s1 ti hk hnew).1
    have h2 := registerTrafficItem_processed_item s1 ti hnew
    rw [hnone, Option.getD_none] at h1 h2
    exact ⟨h1, h2⟩

theorem registerTrafficItem_tables_witness :
    freshModel.knownItemsKeyed
    ∧ (∃ p, mapFind (freshModel.registerTrafficItem 0).myNewTrafficItems
        (freshModel.items 0).id_hash = some p)
    ∧ ∃ s1, performAll rationalCMath (construct 1 0 junctionMemory) sampleStep = some s1
      ∧ s1.myTrafficItems = [] :=
  ⟨knownItemsKeyed_construct 1 0 junctionMemory,
    ((registerTrafficItem_tables rationalCMath).2.1 freshModel 0
      (knownItemsKeyed_construct 1 0 junctionMemory)).1,
    Exists.elim sampleStep_runs fun s1 h =>
      ⟨s1, h,
        ((registerTrafficItem_tables rationalCMath).2.2 1 0 junctionMemory sampleStep s1
          h).1⟩⟩

end MSCFModel_TCI

/-! ## The integration clock of a registered item -/

namespace MSTrafficItem

theorem calculateLatentDemand_remainingIntegrationTime (ti : MSTrafficItem) :
    ti.calculateLatentDemand.remainingIntegrationTime = ti.remainingIntegrationTime := by
  unfold calculateLatentDemand
  split
  · rfl
  · rfl
  · rfl
  · rfl
  · simp only; split_ifs <;> rfl
  · rfl

theorem updateItemIntegration_eq (dt : ℚ) (ti : MSTrafficItem) :
    ti.updateItemIntegration dt
      = if ti.remainingIntegrationTime ≤ dt then
          { ti with remainingIntegrationTime := 0, integrationDemand := 0 }
        else { ti with remainingIntegrationTime := ti.remainingIntegrationTime - dt } := by
  unfold updateItemIntegration
  simp only [sub_nonpos]

theorem updateItemIntegration_nonneg (dt : ℚ) (ti : MSTrafficItem) :
    0 ≤ (ti.updateItemIntegration dt).remainingIntegrationTime := by
  rw [updateItemIntegration_eq]
  split_ifs with h
  · exact le_refl 0
  · exact le_of_lt (sub_pos.mpr (not_le.mp h))

theorem advanceIntegration_of_pos (dt : ℚ) (ti : MSTrafficItem)
    (h : ti.remainingIntegrationTime > 0) :
    ti.advanceIntegration dt = ti.updateItemIntegration dt := by
  simp [advanceIntegration, h]

end MSTrafficItem

namespace MSCFModel_TCI

/-- Once the hash of an item is in the new-item table, no operation writes to
the item again: the table is never emptied, so a later registration of the hash
returns at line 240, and the registration of another hash processes another
object. -/
theorem perform_keeps_registered (m : CMath) (s s1 : MSCFModel_TCI) (op : Operation)
    (ti p : Nat) (hk : s.knownItemsKeyed)
    (hp : mapFind s.myNewTrafficItems (s.items ti).id_hash = some p)
    (h : perform m s op = some s1) :
    s1.knownItemsKeyed
    ∧ (∃ q, mapFind s1.myNewTrafficItems (s1.items ti).id_hash = some q)
    ∧ s1.items ti = s.items ti := by
  cases op with
  | updateStepDuration SIMTIME =>
    simp only [perform, Option.some.injEq] at h
    subst h
    exact ⟨hk, ⟨p, hp⟩, rfl⟩
  | calculateDrivingDifficulty capability demand =>
    simp only [perform, calculateDrivingDifficulty] at h
    split_ifs at h
    simp only [Option.some.injEq] at h
    subst h
    exact ⟨hk, ⟨p, hp⟩, rfl⟩
  | updateAccelerationError randNorm =>
    simp only [perform, Option.some.injEq] at h
    subst h
    exact ⟨hk, ⟨p, hp⟩, rfl⟩
  | updateSpeedPerceptionError randNorm =>
    simp only [perform, Option.some.injEq] at h
    subst h
    exact ⟨hk, ⟨p, hp⟩, rfl⟩
  | updateHeadwayPerceptionError randNorm =>
    simp only [perform, Option.some.injEq] at h
    subst h
    exact ⟨hk, ⟨p, hp⟩, rfl⟩
  | updateActionStepLength =>
    simp only [perform, Option.some.injEq] at h
    subst h
    unfold updateActionStepLength
    split_ifs <;> exact ⟨hk, ⟨p, hp⟩, rfl⟩
  | adaptTaskCapability =>
    simp only [perform, Option.some.injEq] at h
    subst h
    exact ⟨hk, ⟨p, hp⟩, rfl⟩
  | registerTrafficItem ti2 =>
    simp only [perform, Option.some.injEq] at h
    subst h
    cases hseen : mapFind s.myNewTrafficItems (s.items ti2).id_hash with
    | some q =>
      rw [registerTrafficItem_of_seen s ti2 q hseen]
      exact ⟨hk, ⟨p, hp⟩, rfl⟩
    | none =>
      obtain ⟨hnew, hkey⟩ := registerTrafficItem_new_table s ti2 hk hseen
      have hne : (s.items ti).id_hash ≠ (s.items ti2).id_hash := by
        intro hc
        rw [hc, hseen] at hp
        exact absurd hp (by simp)
      refine ⟨knownItemsKeyed_registerTrafficItem s ti2 hk, ⟨p, ?_⟩, ?_⟩
      · rw [registerTrafficItem_id_hash, hnew, mapFind_mapAssign_other _ _ _ _ hne]
        exact hp
      · refine registerTrafficItem_other_items s ti2 ti ?_
        intro hc
        rw [← hc] at hkey
        exact hne hkey

theorem performAll_keeps_registered (m : CMath) (ops : List Operation) :
    ∀ (s s1 : MSCFModel_TCI) (ti : Nat), s.knownItemsKeyed →
      (∃ p, mapFind s.myNewTrafficItems (s.items ti).id_hash = some p) →
      performAll m s ops = some s1 → s1.items ti = s.items ti := by
  induction ops with
  | nil =>
    intro s s1 ti _ _ h
    simp only [performAll, Option.some.injEq] at h
    rw [h]
  | cons op rest ih =>
    intro s s1 ti hk hp h
    obtain ⟨p, hp⟩ := hp
    simp only [performAll] at h
    cases hop : perform m s op with
    | none => rw [hop] at h; exact absurd h (by simp)
    | some s2 =>
      rw [hop] at h
      obtain ⟨hk2, hp2, e2⟩ := perform_keeps_registered m s s2 op ti p hk hp hop
      rw [ih s2 s1 ti hk2 hp2 h, e2]

/-- C6, as stated, fails on the model: the junction item at address 0 has 3
seconds of integration time left; the simulation runs four steps of one second
and hands the item to `registerTrafficItem` in each of them.  The first
registration takes the clock to 2; the later ones find the hash in the new-item
table, which is never emptied, and return at once.  After 4 seconds, more than
the 3 the item started with, the remaining integration time is 2 and the
integration demand is still 4. -/
theorem integration_time_not_reached :
    (freshModel.items 0).remainingIntegrationTime = 3
    ∧ ∃ s1, performAll rationalCMath freshModel repeatedRegistration = some s1
      ∧ s1.myLastUpdateTime - freshModel.myLastUpdateTime = 4
      ∧ (s1.items 0).remainingIntegrationTime = 2
      ∧ (s1.items 0).integrationDemand = 4 := by
  have hk0 : (freshModel.updateStepDuration 0).knownItemsKeyed :=
    fun entry h => absurd h (List.not_mem_nil entry)
  have hnew0 : mapFind (freshModel.updateStepDuration 0).myNewTrafficItems
      ((freshModel.updateStepDuration 0).items 0).id_hash = none := rfl
  have hk2 := knownItemsKeyed_registerTrafficItem (freshModel.updateStepDuration 0) 0 hk0
  have hp2 : ∃ p, mapFind
      ((freshModel.updateStepDuration 0).registerTrafficItem 0).myNewTrafficItems
      (((freshModel.updateStepDuration 0).registerTrafficItem 0).items 0).id_hash = some p := by
    obtain ⟨p, hp⟩ := registerTrafficItem_seen_after (freshModel.updateStepDuration 0) 0 hk0
    exact ⟨p, by rw [registerTrafficItem_id_hash]; exact hp⟩
  have hitem2 : ((freshModel.updateStepDuration 0).registerTrafficItem 0).items 0
      = MSTrafficItem.advanceIntegration (freshModel.updateStepDuration 0).myStepDuration
          (MSTrafficItem.calculateLatentDemand junctionItem) :=
    registerTrafficItem_processed_item (freshModel.updateStepDuration 0) 0 hnew0
  have hlater := performAll_keeps_registered rationalCMath
    [.updateStepDuration 1, .registerTrafficItem 0, .updateStepDuration 2,
      .registerTrafficItem 0, .updateStepDuration 3, .registerTrafficItem 0]
    ((freshModel.updateStepDuration 0).registerTrafficItem 0) _ 0 hk2 hp2 rfl
  refine ⟨rfl, _, rfl, ?_, ?_, ?_⟩
  · rw [registerTrafficItem_frame]
    norm_num [updateStepDuration, freshModel, construct]
  · rw [hlater, hitem2]
    norm_num [MSTrafficItem.advanceIntegration, MSTrafficItem.updateItemIntegration,
      MSTrafficItem.calculateLatentDemand, junctionItem, updateStepDuration, freshModel,
      construct]
  · rw [hlater, hitem2]
    norm_num [MSTrafficItem.advanceIntegration, MSTrafficItem.updateItemIntegration,
      MSTrafficItem.calculateLatentDemand, junctionItem, updateStepDuration, freshModel,
      construct]

end MSCFModel_TCI

namespace MSCFModel_TCI

/-- C6 (amended): one `updateItemIntegration` on an item with remaining
integration time `T` at step duration `dt` leaves the remaining time `T - dt`
if `dt < T`, and otherwise sets the remaining time and the integration demand
to exactly 0; the result is never negative.  `registerTrafficItem` applies this
update (for `T > 0`) only when it first processes the hash of the item: in
every state reached from a constructed model, after the first registration of
an item no later operation changes the item, so after any number of further
steps its remaining integration time is `T - dt1` if the step duration `dt1` of
the first registration is below `T`, and 0 with integration demand 0 otherwise,
whatever time elapses afterwards. -/
theorem integration_clock_advances_once (m : CMath) :
    (∀ (dt : ℚ) (ti : MSTrafficItem),
        MSTrafficItem.updateItemIntegration dt ti
          = if ti.remainingIntegrationTime ≤ dt then
              { ti with remainingIntegrationTime := 0, integrationDemand := 0 }
            else { ti with remainingIntegrationTime := ti.remainingIntegrationTime - dt })
    ∧ (∀ (dt : ℚ) (ti : MSTrafficItem),
        0 ≤ (MSTrafficItem.updateItemIntegration dt ti).remainingIntegrationTime)
    ∧ (∀ (TS SIMTIME : ℚ) (items : Nat → MSTrafficItem) (before later : List Operation)
        (s s1 : MSCFModel_TCI) (ti : Nat),
        performAll m (construct TS SIMTIME items) before = some s →
        mapFind s.myNewTrafficItems (s.items ti).id_hash = none →
        (s.items ti).remainingIntegrationTime > 0 →
        performAll m (s.registerTrafficItem ti) later = some s1 →
        s1.items ti
          = MSTrafficItem.updateItemIntegration s.myStepDuration
              (MSTrafficItem.calculateLatentDemand (s.items ti))
        ∧ (s1.items ti).remainingIntegrationTime
          = (if (s.items ti).remainingIntegrationTime ≤ s.myStepDuration then 0
              else (s.items ti).remainingIntegrationTime - s.myStepDuration)
        ∧ (s1.items ti).integrationDemand
          = (if (s.items ti).remainingIntegrationTime ≤ s.myStepDuration then 0
              else (s.items ti).integrationDemand)) := by
  refine ⟨MSTrafficItem.updateItemIntegration_eq, MSTrafficItem.updateItemIntegration_nonneg, ?_⟩
  intro TS SIMTIME items before later s s1 ti hreach hnew hT hrun
  have hempty : s.myTrafficItems = [] := (performAll_frame m before _ s hreach).2
  have hk : s.knownItemsKeyed := by
    intro entry hentry
    rw [hempty] at hentry
    exact absurd hentry (List.not_mem_nil entry)
  have hnone : mapFind s.myTrafficItems (s.items ti).id_hash = none := by
    rw [hempty]
    rfl
  have hp : ∃ p, mapFind (s.registerTrafficItem ti).myNewTrafficItems
      ((s.registerTrafficItem ti).items ti).id_hash = some p := by
    obtain ⟨p, hp⟩ := registerTrafficItem_seen_after s ti hk
    exact ⟨p, by rw [registerTrafficItem_id_hash]; exact hp⟩
  have hlater := performAll_keeps_registered m later (s.registerTrafficItem ti) s1 ti
    (knownItemsKeyed_registerTrafficItem s ti hk) hp hrun
  have hfirst := registerTrafficItem_processed_item s ti hnew
  rw [hnone, Option.getD_none] at hfirst
  have hT1 : (MSTrafficItem.calculateLatentDemand (s.items ti)).remainingIntegrationTime > 0 := by
    rw [MSTrafficItem.calculateLatentDemand_remainingIntegrationTime]
    exact hT
  rw [MSTrafficItem.advanceIntegration_of_pos _ _ hT1] at hfirst
  have hitem : s1.items ti
      = MSTrafficItem.updateItemIntegration s.myStepDuration
          (MSTrafficItem.calculateLatentDemand (s.items ti)) := by
    rw [hlater, hfirst]
  refine ⟨hitem, ?_, ?_⟩
  · rw [hitem, MSTrafficItem.updateItemIntegration_eq,
      MSTrafficItem.calculateLatentDemand_remainingIntegrationTime]
    split_ifs <;> rfl
  · rw [hitem, MSTrafficItem.updateItemIntegration_eq,
      MSTrafficItem.calculateLatentDemand_remainingIntegrationTime]
    split_ifs
    · rfl
    · exact MSTrafficItem.calculateLatentDemand_integrationDemand _

theorem integration_clock_advances_once_witness :
    (performAll rationalCMath (construct 1 0 junctionMemory) [] = some freshModel
      ∧ mapFind freshModel.myNewTrafficItems (freshModel.items 0).id_hash = none
      ∧ (freshModel.items 0).remainingIntegrationTime > 0
      ∧ performAll rationalCMath (freshModel.registerTrafficItem 0)
          [.updateStepDuration 5, .registerTrafficItem 0]
        = some (((freshModel.registerTrafficItem 0).updateStepDuration 5).registerTrafficItem 0))
    ∧ ((((freshModel.registerTrafficItem 0).updateStepDuration 5).registerTrafficItem 0).items
          0).remainingIntegrationTime
        = (if (freshModel.items 0).remainingIntegrationTime ≤ freshModel.myStepDuration then 0
            else (freshModel.items 0).remainingIntegrationTime - freshModel.myStepDuration) :=
  have hT : (freshModel.items 0).remainingIntegrationTime > 0 := by
    norm_num [freshModel, construct, junctionMemory, junctionItem]
  ⟨⟨rfl, rfl, hT, rfl⟩,
    ((integration_clock_advances_once rationalCMath).2.2 1 0 junctionMemory []
      [.updateStepDuration 5, .registerTrafficItem 0] freshModel
      (((freshModel.registerTrafficItem 0).updateStepDuration 5).registerTrafficItem 0) 0
      rfl rfl hT rfl).2.1⟩

end MSCFModel_TCI

end TCI
